import Mathlib

/-!
Verification model of `static/js/main.js` — the governance intake form with its
suggestion reconciliation engine.  The dynamic-field DOM is embedded as an
explicit state (`FormState`); the reconciliation, collection, validation and
extraction functions are translated operation by operation from the source.
-/

namespace Frontend

/-! ### String primitives

JavaScript regex classes restricted to the ASCII range: `\w` is
`[A-Za-z0-9_]`, `\s` matches space, tab, newline, carriage return, vertical
tab and form feed.  `String.prototype.trim` strips `\s` from both ends. -/

def isJsSpace (c : Char) : Bool :=
  c = ' ' || c = '\t' || c = '\n' || c = '\r' || c = Char.ofNat 11 || c = Char.ofNat 12

def isWordChar (c : Char) : Bool :=
  ('a' ≤ c && c ≤ 'z') || ('A' ≤ c && c ≤ 'Z') || ('0' ≤ c && c ≤ '9') || c = '_'

def jsTrimList (cs : List Char) : List Char :=
  ((cs.dropWhile isJsSpace).reverse.dropWhile isJsSpace).reverse

def jsTrim (s : String) : String :=
  ⟨jsTrimList s.data⟩

def jsLower (s : String) : String :=
  ⟨s.data.map Char.toLower⟩

/-- Replace every maximal run of `\s` characters by `rep`
(the effect of `.replace(/\s+/g, rep)`).  The flag records whether the
previous character belonged to a whitespace run. -/
def collapseRunsAux (rep : List Char) : Bool → List Char → List Char
  | _, [] => []
  | prevSpace, c :: rest =>
    if isJsSpace c then
      (if prevSpace then [] else rep) ++ collapseRunsAux rep true rest
    else c :: collapseRunsAux rep false rest

def collapseRuns (rep : List Char) (cs : List Char) : List Char :=
  collapseRunsAux rep false cs

/-- `labelToFieldId` from main.js: lowercase, drop `[^\w\s]`, collapse
whitespace runs to `-`. -/
def labelToFieldId (label : String) : String :=
  ⟨collapseRuns ['-'] ((label.data.map Char.toLower).filter
      (fun c => isWordChar c || isJsSpace c))⟩

/-- The field key used by `collectDynamicFields`: lowercase, drop `[^\w\s]`,
collapse whitespace runs to `_`. -/
def collectKey (label : String) : String :=
  ⟨collapseRuns ['_'] ((label.data.map Char.toLower).filter
      (fun c => isWordChar c || isJsSpace c))⟩

/-- The `normalize` closure in `populateSuggestedFields`: lowercase, drop
`[^\w\s-]` (hyphens survive), collapse whitespace runs to single spaces,
trim. -/
def jsNormalize (s : String) : String :=
  jsTrim ⟨collapseRuns [' '] ((s.data.map Char.toLower).filter
      (fun c => isWordChar c || isJsSpace c || c = '-'))⟩

def spaceToUnderscore (s : String) : String :=
  ⟨collapseRuns ['_'] s.data⟩

def spaceToHyphen (s : String) : String :=
  ⟨collapseRuns ['-'] s.data⟩

/-- Remove the first occurrence of `pat` (the effect of
`String.prototype.replace` with a plain-string pattern and empty
replacement). -/
def removeFirstOcc (pat : List Char) (cs : List Char) : List Char :=
  match cs with
  | [] => []
  | c :: rest =>
    if pat.isPrefixOf (c :: rest) then (c :: rest).drop pat.length
    else c :: removeFirstOcc pat rest

/-! ### The dynamic-field state

A text entry models one `<input type="text">` or `<textarea>` rendered by
`generateDynamicFields`: its `id` attribute, `data-label`, `required`
attribute, current `value`, the `data-ai-original` attribute (`aiOrig`) and
whether an `.ai-badge` element is attached to its wrapper (`badge`).  A radio
group models one `.form-group` holding a `.radio-group`: its `data-label`,
option inputs in order, and the group-level `.ai-badge` with its
`data-ai-original` attribute. -/

structure TextField where
  id : String
  label : String
  required : Bool
  value : String
  aiOrig : Option String
  badge : Bool
deriving DecidableEq, Repr

structure RadioOpt where
  value : String
  checked : Bool
deriving DecidableEq, Repr

structure RadioGroup where
  label : String
  opts : List RadioOpt
  badge : Option String
deriving DecidableEq, Repr

structure FormState where
  texts : List TextField
  groups : List RadioGroup
deriving DecidableEq, Repr

/-! ### Text-field events

`generateDynamicFields` attaches an `input` listener to every text field: if
`data-ai-original` is present and the live value no longer equals it, the
badge and the attribute are removed. -/

def inputListener (f : TextField) : TextField :=
  match f.aiOrig with
  | some o => if f.value ≠ o then { f with aiOrig := none, badge := false } else f
  | none => f

/-- Set the value programmatically and dispatch `input` (the id-slug fallback
in `populateSuggestedFields`, and a user edit, both do exactly this). -/
def setValueAndInput (v : String) (f : TextField) : TextField :=
  inputListener { f with value := v }

/-- The guarded text/textarea fill in `populateSuggestedFields`: only when the
trimmed live value is empty, set the value and `data-ai-original`, dispatch
`input` (a no-op since value and original coincide), and attach the badge. -/
def fillIfEmpty (v : String) (f : TextField) : TextField :=
  if jsTrim f.value = "" then
    { inputListener { f with value := v, aiOrig := some v } with badge := true }
  else f

inductive TextOp where
  | fill (v : String)
  | finput (v : String)
deriving DecidableEq, Repr

def applyTextOp (op : TextOp) (f : TextField) : TextField :=
  match op with
  | .fill v => fillIfEmpty v f
  | .finput v => setValueAndInput v f

/-- One DOM write addressed by element position. -/
def applyWrite (ts : List TextField) (w : Nat × TextOp) : List TextField :=
  match ts[w.1]? with
  | some f => ts.set w.1 (applyTextOp w.2 f)
  | none => ts

def applyWrites (ws : List (Nat × TextOp)) (ts : List TextField) : List TextField :=
  ws.foldl applyWrite ts

/-! ### The static lookup index

`populateSuggestedFields` builds `labelMap`, `normMap` and `radioMap` once,
before the `requestAnimationFrame` callback runs, from attributes that the
subsequent mutations never touch (labels, ids, option values).  `Skel`
captures exactly that immutable skeleton. -/

structure Skel where
  tlabs : List (String × String)
  glabs : List (String × List String)
deriving DecidableEq, Repr

def skel (s : FormState) : Skel :=
  { tlabs := s.texts.map (fun f => (f.label, f.id)),
    glabs := s.groups.map (fun g => (g.label, g.opts.map RadioOpt.value)) }

/-- `labelMap.has(label)` with a non-empty bucket: some `[data-label]` element
(text field or radio option input) carries exactly this label.  A radio group
contributes one element per option, so a group with an empty option list
contributes nothing. -/
def exactHas (k : Skel) (label : String) : Bool :=
  k.tlabs.any (fun p => p.1 = label) || k.glabs.any (fun p => p.1 = label && !p.2.isEmpty)

/-- Positions of the text fields in the exact-label bucket (the radio inputs
in the bucket are skipped by the tag check when filling). -/
def exactTextIdxs (k : Skel) (label : String) : List Nat :=
  (List.range k.tlabs.length).filter (fun i =>
    match k.tlabs[i]? with
    | some p => p.1 = label
    | none => false)

/-- The three keys each element is registered under in `normMap`: the
normalized label, then its underscore and hyphen variants. -/
def normVariants (n : String) : List String :=
  [n, spaceToUnderscore n, spaceToHyphen n]

/-- `normMap.has(key)`: some labeled element registered this key.  Elements
with a label normalizing to the empty string are skipped. -/
def normHasKey (k : Skel) (key : String) : Bool :=
  (k.tlabs.any fun p =>
    jsNormalize p.1 ≠ "" && (normVariants (jsNormalize p.1)).contains key) ||
  (k.glabs.any fun p =>
    !p.2.isEmpty && jsNormalize p.1 ≠ "" && (normVariants (jsNormalize p.1)).contains key)

/-- Text positions in the `normMap` bucket for `key`, with the multiplicity
the source produces: an element whose three variant keys coincide is pushed
into the same bucket several times. -/
def normBucketTextIdxs (k : Skel) (key : String) : List Nat :=
  (List.range k.tlabs.length).flatMap (fun i =>
    match k.tlabs[i]? with
    | some p =>
      let n := jsNormalize p.1
      if n = "" then []
      else (normVariants n).filterMap (fun var => if var = key then some i else none)
    | none => [])

/-- The lookup chain `normMap.get(n) || normMap.get(under) || normMap.get(hyph)`:
the first key present in the map wins, even when its bucket holds only radio
inputs and therefore no text field gets written. -/
def normLookupIdxs (k : Skel) (label : String) : List Nat :=
  let n := jsNormalize label
  if normHasKey k n then normBucketTextIdxs k n
  else if normHasKey k (spaceToUnderscore n) then normBucketTextIdxs k (spaceToUnderscore n)
  else if normHasKey k (spaceToHyphen n) then normBucketTextIdxs k (spaceToHyphen n)
  else []

/-- `radioMap.has(label)`: at least one radio input carries this label. -/
def radioHas (k : Skel) (label : String) : Bool :=
  k.glabs.any fun p => p.1 = label && !p.2.isEmpty

/-- `document.getElementById(labelToFieldId(label))` restricted to the
dynamic fields: the first text field whose id is the slug (radio inputs are
rendered without an id attribute). -/
def fallbackIdx (k : Skel) (label : String) : Option Nat :=
  ((List.range k.tlabs.length).filter (fun i =>
    match k.tlabs[i]? with
    | some p => p.2 = labelToFieldId label
    | none => false)).head?

/-- The ordered text-field writes a single suggestion entry performs: the
exact-label fill, else the normalized fill; the id-slug fallback write fires
whenever the exact bucket is empty and no radio input carries the label —
independently of whether the normalized lookup matched. -/
def textWrites (k : Skel) (label v : String) : List (Nat × TextOp) :=
  (if exactHas k label then (exactTextIdxs k label).map (fun i => (i, TextOp.fill v))
   else (normLookupIdxs k label).map (fun i => (i, TextOp.fill v))) ++
  (if !exactHas k label && !radioHas k label then
     match fallbackIdx k label with
     | some i => [(i, TextOp.finput v)]
     | none => []
   else [])

/-! ### Radio groups -/

/-- Is any radio with this label checked (`radios.some(r => r.checked)`)? -/
def clusterChecked (gs : List RadioGroup) (label : String) : Bool :=
  gs.any fun g => g.label = label && g.opts.any RadioOpt.checked

/-- Value of the first checked radio among all radios sharing the label
(`Array.from(group).find(x => x.checked)`). -/
def firstCheckedValue (gs : List RadioGroup) (label : String) : Option String :=
  (((gs.filter (fun g => g.label = label)).flatMap RadioGroup.opts).find?
      RadioOpt.checked).map RadioOpt.value

/-- The `change` listener attached to every radio input: for each form group
in the label cluster holding a badge, drop the badge unless the currently
checked radio value equals the badge's stored original. -/
def radioChangeListener (label : String) (gs : List RadioGroup) : List RadioGroup :=
  let cv := firstCheckedValue gs label
  gs.map fun g =>
    if g.label = label then
      match g.badge with
      | some o =>
        match cv with
        | some v => if v ≠ o then { g with badge := none } else g
        | none => { g with badge := none }
      | none => g
    else g

/-- Replace the group at position `gi`. -/
def modifyGroup (gs : List RadioGroup) (gi : Nat) (h : RadioGroup → RadioGroup) :
    List RadioGroup :=
  match gs[gi]? with
  | some g => gs.set gi (h g)
  | none => gs

/-- Check the option at position `oi`, unchecking its siblings. -/
def checkOpts : Nat → List RadioOpt → List RadioOpt
  | _, [] => []
  | 0, o :: rest => { o with checked := true } :: rest.map (fun r => { r with checked := false })
  | n + 1, o :: rest => { o with checked := false } :: checkOpts n rest

/-- `r.checked = true` on option `oi` of group `gi`: radios sharing a `name`
uncheck their siblings. -/
def checkOption (gs : List RadioGroup) (gi oi : Nat) : List RadioGroup :=
  modifyGroup gs gi (fun g => { g with opts := checkOpts oi g.opts })

/-- Attach the group-level badge carrying the suggested value, unless the
form group already shows one. -/
def setBadgeIfNone (gs : List RadioGroup) (gi : Nat) (v : String) : List RadioGroup :=
  modifyGroup gs gi (fun g => if g.badge.isNone then { g with badge := some v } else g)

def optValueAt (gs : List RadioGroup) (gi oi : Nat) : Option String :=
  match gs[gi]? with
  | some g =>
    match g.opts[oi]? with
    | some o => some o.value
    | none => none
  | none => none

/-- Cluster positions, group by group, option by option, in DOM order. -/
def clusterPositions (gs : List RadioGroup) (label : String) : List (Nat × Nat) :=
  (List.range gs.length).flatMap fun gi =>
    match gs[gi]? with
    | some g =>
      if g.label = label then (List.range g.opts.length).map (fun oi => (gi, oi)) else []
    | none => []

/-- Body of `radios.forEach(r => ...)`: when the option value matches the
suggested value case-insensitively, check it, dispatch `change` (running the
listener above), then add the group badge. -/
def applyRadioMatch (label v : String) (gs : List RadioGroup) (pos : Nat × Nat) :
    List RadioGroup :=
  match optValueAt gs pos.1 pos.2 with
  | some ov =>
    if jsLower ov = jsLower v then
      setBadgeIfNone (radioChangeListener label (checkOption gs pos.1 pos.2)) pos.1 v
    else gs
  | none => gs

/-- The radio-group branch of one suggestion entry: only when the label is in
`radioMap` and no radio of the cluster is checked. -/
def radioStep (k : Skel) (label v : String) (gs : List RadioGroup) : List RadioGroup :=
  if radioHas k label then
    if !clusterChecked gs label then
      (clusterPositions gs label).foldl (applyRadioMatch label v) gs
    else gs
  else gs

/-! ### The reconciliation engine -/

/-- One `entries.forEach(([label, value]) => ...)` iteration.  `none` models
a `null`/`undefined` suggestion value, which is skipped.  Text writes and the
radio branch touch disjoint state, so they are applied componentwise in the
source order (exact/normalized fills, radio branch, id-slug fallback — the
fallback write commutes with the radio branch). -/
def stepEntry (k : Skel) (s : FormState) (e : String × Option String) : FormState :=
  match e.2 with
  | none => s
  | some v =>
    { texts := applyWrites (textWrites k e.1 v) s.texts,
      groups := radioStep k e.1 v s.groups }

/-- `populateSuggestedFields`: build the static maps, then apply the entries
in order. -/
def populateSuggestedFields (entries : List (String × Option String)) (s : FormState) :
    FormState :=
  entries.foldl (stepEntry (skel s)) s

/-- A user edit of a text field at position `i`: the value changes and an
`input` event fires on the field. -/
def userEditText (s : FormState) (i : Nat) (v : String) : FormState :=
  { s with texts := applyWrite s.texts (i, TextOp.finput v) }

/-! ### The schema renderer

`generateDynamicFields` walks `stages → evidenceSet → artifacts` and emits
one control per artifact: a text input for `textinput`, a textarea for
`textarea`, and — when `details.options` is present — a radio group whose
first option carries the `checked` attribute.  Radio inputs are emitted
without a `required` attribute and without an `id`. -/

structure ArtifactDetails where
  label : String
  type : String
  options : Option (List String)
deriving DecidableEq, Repr

structure Artifact where
  id : String
  required : Bool
  details : ArtifactDetails
deriving DecidableEq, Repr

structure Evidence where
  name : String
  description : Option String
  artifacts : List Artifact
deriving DecidableEq, Repr

structure Stage where
  name : String
  evidenceSet : List Evidence
deriving DecidableEq, Repr

structure PolicyDocument where
  stages : List Stage
deriving DecidableEq, Repr

def emptyState : FormState := { texts := [], groups := [] }

/-- Option inputs for a radio artifact: `index === 0` carries the `checked`
attribute. -/
def mkOpts : List String → List RadioOpt
  | [] => []
  | v :: rest =>
    { value := v, checked := true } :: rest.map (fun u => { value := u, checked := false })

def appendState (a b : FormState) : FormState :=
  { texts := a.texts ++ b.texts, groups := a.groups ++ b.groups }

def artifactFields (a : Artifact) : FormState :=
  if a.details.type = "textinput" || a.details.type = "textarea" then
    { texts := [{ id := "field-" ++ a.id, label := a.details.label,
                  required := a.required, value := "", aiOrig := none, badge := false }],
      groups := [] }
  else if a.details.type = "radio" then
    match a.details.options with
    | some os =>
      { texts := [],
        groups := [{ label := a.details.label, opts := mkOpts os, badge := none }] }
    | none => emptyState
  else emptyState

def generateDynamicFields (p : PolicyDocument) : FormState :=
  (p.stages.flatMap fun st =>
    if st.evidenceSet.isEmpty then []
    else st.evidenceSet.flatMap fun ev =>
      if ev.artifacts.isEmpty then []
      else ev.artifacts.map artifactFields).foldl appendState emptyState

/-! ### Collection -/

inductive FieldValue where
  | str (s : String)
  | bool (b : Bool)
deriving DecidableEq, Repr

/-- Assignment into a JavaScript object: an existing key keeps its insertion
position but takes the new value; a new key is appended. -/
def upsert (m : List (String × FieldValue)) (k : String) (v : FieldValue) :
    List (String × FieldValue) :=
  if m.any (fun p => p.1 = k) then m.map (fun p => if p.1 = k then (k, v) else p)
  else m ++ [(k, v)]

/-- `collectDynamicFields`: text fields first (trimmed values), then radio
groups — the first checked option per group; the literal values `Yes`/`No`
coerce to booleans, any other checked value passes through unchanged. -/
def collectDynamicFields (s : FormState) : List (String × FieldValue) :=
  let m1 := s.texts.foldl
    (fun m f => upsert m (collectKey f.label) (FieldValue.str (jsTrim f.value))) []
  s.groups.foldl
    (fun m g =>
      match g.opts.find? RadioOpt.checked with
      | some o =>
        if o.value = "Yes" || o.value = "No" then
          upsert m (collectKey g.label) (FieldValue.bool (o.value = "Yes"))
        else upsert m (collectKey g.label) (FieldValue.str o.value)
      | none => m)
    m1

/-! ### Validation and submission -/

/-- `!appState.selectedPolicy`: no selection yet, or the placeholder option
whose value is the empty string. -/
def policyMissing : Option String → Bool
  | none => true
  | some s => s = ""

/-- Text content of a field's `<label>` element as rendered:
the label plus a space and the star for required fields. -/
def labelText (f : TextField) : String :=
  f.label ++ (if f.required then " *" else "")

/-- `validateForm`: policy check, file check, then every `[required]` element
inside `#dynamic-fields` with an empty trimmed value.  Radio inputs never
carry the `required` attribute, so only text fields are scanned. -/
def validateForm (selectedPolicy : Option String) (fileCount : Nat) (s : FormState) :
    List String :=
  (if policyMissing selectedPolicy then ["Please select a policy"] else []) ++
  (if fileCount = 0 then ["Please upload a .docx file"] else []) ++
  ((s.texts.filter TextField.required).flatMap fun f =>
    if jsTrim f.value = "" then
      [String.mk (removeFirstOcc (" *".data) (labelText f).data) ++ " is required"]
    else [])

/-- `handleSubmit` up to the network boundary: with validation errors the
handler returns before any request is created; otherwise it sends the
collected dynamic fields. -/
def handleSubmitRequest (selectedPolicy : Option String) (fileCount : Nat) (s : FormState) :
    Option (List (String × FieldValue)) :=
  if validateForm selectedPolicy fileCount s = [] then some (collectDynamicFields s)
  else none

/-! ### JSON values

Assistant payloads are JSON values.  Numbers keep their source lexeme — none
of the flows in scope computes with them. -/

inductive Json where
  | null
  | bool (b : Bool)
  | num (lexeme : String)
  | str (s : String)
  | arr (xs : List Json)
  | obj (kvs : List (String × Json))
deriving Repr

def lbraceChar : Char := Char.ofNat 123

def rbraceChar : Char := Char.ofNat 125

/-- JavaScript truthiness of a JSON value. -/
def jsTruthy : Json → Bool
  | .null => false
  | .bool b => b
  | .str s => s ≠ ""
  | .num lex => (lex.data.takeWhile (fun c => c ≠ 'e' && c ≠ 'E')).any
      (fun c => '1' ≤ c && c ≤ '9')
  | .arr _ => true
  | .obj _ => true

def Json.isArrB : Json → Bool
  | .arr _ => true
  | _ => false

def Json.isObjB : Json → Bool
  | .obj _ => true
  | _ => false

def Json.isStrB : Json → Bool
  | .str _ => true
  | _ => false

/-- Property read `j.k`: defined only on objects; on every other base it is
`undefined`, which the call sites treat as absent. -/
def getFieldJ (j : Json) (k : String) : Option Json :=
  match j with
  | .obj kvs => (kvs.find? (fun p => p.1 = k)).map Prod.snd
  | _ => none

/-- Property read that is also truthy. -/
def fieldTruthy (j : Json) (k : String) : Option Json :=
  match getFieldJ j k with
  | some v => if jsTruthy v then some v else none
  | none => none

/-! ### `JSON.parse` -/

def skipJsonWs : List Char → List Char
  | [] => []
  | c :: rest =>
    if c = ' ' || c = '\t' || c = '\n' || c = '\r' then skipJsonWs rest else c :: rest

/-- Body of a JSON string literal, after the opening quote. -/
def parseStringBody : Nat → List Char → List Char → Option (String × List Char)
  | 0, _, _ => none
  | _ + 1, [], _ => none
  | fuel + 1, c :: rest, acc =>
    if c = '"' then some (⟨acc.reverse⟩, rest)
    else if c = '\\' then
      match rest with
      | [] => none
      | e :: rest2 =>
        if e = '"' then parseStringBody fuel rest2 ('"' :: acc)
        else if e = '\\' then parseStringBody fuel rest2 ('\\' :: acc)
        else if e = '/' then parseStringBody fuel rest2 ('/' :: acc)
        else if e = 'n' then parseStringBody fuel rest2 ('\n' :: acc)
        else if e = 't' then parseStringBody fuel rest2 ('\t' :: acc)
        else if e = 'r' then parseStringBody fuel rest2 ('\r' :: acc)
        else if e = 'b' then parseStringBody fuel rest2 (Char.ofNat 8 :: acc)
        else if e = 'f' then parseStringBody fuel rest2 (Char.ofNat 12 :: acc)
        else none
    else parseStringBody fuel rest (c :: acc)

/-- Fraction and exponent tail of a number lexeme.  An ill-formed tail is
left unconsumed, so the leftover characters fail at the enclosing
delimiter — as `JSON.parse` does. -/
def parseNumberTail (cs : List Char) : List Char × List Char :=
  let (frac, r1) :=
    match cs with
    | '.' :: r =>
      let ds := r.takeWhile Char.isDigit
      if ds = [] then ([], cs) else ('.' :: ds, r.dropWhile Char.isDigit)
    | _ => ([], cs)
  let (ex, r2) :=
    match r1 with
    | c :: r =>
      if c = 'e' || c = 'E' then
        let (sgn, rs) :=
          match r with
          | s :: rr => if s = '+' || s = '-' then ([s], rr) else ([], r)
          | [] => ([], r)
        let ds := rs.takeWhile Char.isDigit
        if ds = [] then ([], r1) else (c :: (sgn ++ ds), rs.dropWhile Char.isDigit)
      else ([], r1)
    | [] => ([], r1)
  (frac ++ ex, r2)

def parseNumberLex (cs : List Char) : Option (List Char × List Char) :=
  let (neg, cs1) :=
    match cs with
    | '-' :: r => (['-'], r)
    | _ => (([] : List Char), cs)
  match cs1 with
  | c :: _ =>
    if c = '0' then
      let (tail, r) := parseNumberTail (cs1.drop 1)
      some (neg ++ '0' :: tail, r)
    else if c.isDigit then
      let ds := cs1.takeWhile Char.isDigit
      let (tail, r) := parseNumberTail (cs1.dropWhile Char.isDigit)
      some (neg ++ ds ++ tail, r)
    else none
  | [] => none

/-- Duplicate keys overwrite in place, as in a JavaScript object. -/
def jsonObjInsert (kvs : List (String × Json)) (k : String) (v : Json) :
    List (String × Json) :=
  if kvs.any (fun p => p.1 = k) then kvs.map (fun p => if p.1 = k then (k, v) else p)
  else kvs ++ [(k, v)]

mutual

def parseVal : Nat → List Char → Option (Json × List Char)
  | 0, _ => none
  | fuel + 1, cs =>
    match skipJsonWs cs with
    | [] => none
    | c :: rest =>
      if c = '"' then
        match parseStringBody (rest.length + 1) rest [] with
        | some (s, r) => some (.str s, r)
        | none => none
      else if c = 't' then
        if ['r', 'u', 'e'].isPrefixOf rest then some (.bool true, rest.drop 3) else none
      else if c = 'f' then
        if ['a', 'l', 's', 'e'].isPrefixOf rest then some (.bool false, rest.drop 4) else none
      else if c = 'n' then
        if ['u', 'l', 'l'].isPrefixOf rest then some (.null, rest.drop 3) else none
      else if c = lbraceChar then
        match skipJsonWs rest with
        | d :: rest2 => if d = rbraceChar then some (.obj [], rest2) else parseMembers fuel rest []
        | [] => none
      else if c = '[' then
        match skipJsonWs rest with
        | d :: rest2 => if d = ']' then some (.arr [], rest2) else parseItems fuel rest []
        | [] => none
      else
        match parseNumberLex (c :: rest) with
        | some (lex, r) => some (.num ⟨lex⟩, r)
        | none => none

def parseMembers : Nat → List Char → List (String × Json) → Option (Json × List Char)
  | 0, _, _ => none
  | fuel + 1, cs, acc =>
    match skipJsonWs cs with
    | c :: rest =>
      if c = '"' then
        match parseStringBody (rest.length + 1) rest [] with
        | some (k, r1) =>
          match skipJsonWs r1 with
          | ':' :: r2 =>
            match parseVal fuel r2 with
            | some (v, r3) =>
              match skipJsonWs r3 with
              | d :: r4 =>
                if d = ',' then parseMembers fuel r4 (jsonObjInsert acc k v)
                else if d = rbraceChar then some (.obj (jsonObjInsert acc k v), r4)
                else none
              | [] => none
            | none => none
          | _ => none
        | none => none
      else none
    | [] => none

def parseItems : Nat → List Char → List Json → Option (Json × List Char)
  | 0, _, _ => none
  | fuel + 1, cs, acc =>
    match parseVal fuel cs with
    | some (v, r1) =>
      match skipJsonWs r1 with
      | d :: r2 =>
        if d = ',' then parseItems fuel r2 (acc ++ [v])
        else if d = ']' then some (.arr (acc ++ [v]), r2)
        else none
      | [] => none
    | none => none

end

def parseJsonText (s : String) : Option Json :=
  match parseVal (2 * s.data.length + 8) s.data with
  | some (j, rest) => if skipJsonWs rest = [] then some j else none
  | none => none

/-! ### `JSON.stringify` -/

def escapeJsonChar (c : Char) : List Char :=
  if c = '"' then ['\\', '"']
  else if c = '\\' then ['\\', '\\']
  else if c = '\n' then ['\\', 'n']
  else if c = '\t' then ['\\', 't']
  else if c = '\r' then ['\\', 'r']
  else [c]

def quoteJson (s : String) : String :=
  ⟨'"' :: (s.data.flatMap escapeJsonChar ++ ['"'])⟩

mutual

def stringifyJson : Json → String
  | .null => "null"
  | .bool true => "true"
  | .bool false => "false"
  | .num lex => lex
  | .str s => quoteJson s
  | .arr xs => "[" ++ stringifyItems xs ++ "]"
  | .obj kvs => ⟨[lbraceChar]⟩ ++ stringifyMembers kvs ++ ⟨[rbraceChar]⟩

def stringifyItems : List Json → String
  | [] => ""
  | [x] => stringifyJson x
  | x :: y :: rest => stringifyJson x ++ "," ++ stringifyItems (y :: rest)

def stringifyMembers : List (String × Json) → String
  | [] => ""
  | [(k, v)] => quoteJson k ++ ":" ++ stringifyJson v
  | (k, v) :: m :: rest => quoteJson k ++ ":" ++ stringifyJson v ++ "," ++ stringifyMembers (m :: rest)

end

/-! ### The suggestion extractor

`extractSuggestionsFromAssistResponse`, lines 950-1015.  The result is
`none` exactly when the function lets a `TypeError` escape: the only
statement that can throw outside the `try` block is `contentStr.match(...)`,
reached with a truthy non-string `contentStr`. -/

/-- Split `cs` at the first occurrence of `pat`:
`(prefix before pat, suffix after pat)`. -/
def findSub (pat : List Char) : List Char → Option (List Char × List Char)
  | [] => if pat.isPrefixOf ([] : List Char) then some ([], []) else none
  | c :: rest =>
    if pat.isPrefixOf (c :: rest) then some ([], (c :: rest).drop pat.length)
    else (findSub pat rest).map (fun pr => (c :: pr.1, pr.2))

/-- One attempt of the fence regex at the current position:
three backticks, an optional case-insensitive `json` tag, a newline, then the
shortest body terminated by a newline and three backticks. -/
def fenceAt (cs : List Char) : Option (List Char) :=
  if "```".data.isPrefixOf cs then
    let r := cs.drop 3
    let withTag :=
      if (r.take 4).map Char.toLower = "json".data then
        match r.drop 4 with
        | '\n' :: body => (findSub "\n```".data body).map Prod.fst
        | _ => none
      else none
    match withTag with
    | some g => some g
    | none =>
      match r with
      | '\n' :: body => (findSub "\n```".data body).map Prod.fst
      | _ => none
  else none

/-- Leftmost match of `/(three backticks)(json)?\n([content])\n(three backticks)/i`,
returning the captured body. -/
def fenceSearch : List Char → Option (List Char)
  | [] => none
  | c :: rest =>
    match fenceAt (c :: rest) with
    | some g => some g
    | none => fenceSearch rest

/-- The greedy object regex: from the first opening brace to the last
closing brace, provided the latter comes after the former. -/
def objSpan (cs : List Char) : Option (List Char) :=
  match cs.findIdx? (fun c => c = lbraceChar), cs.reverse.findIdx? (fun c => c = rbraceChar) with
  | some i0, some jr =>
    let j0 := cs.length - 1 - jr
    if i0 < j0 then some ((cs.drop i0).take (j0 - i0 + 1)) else none
  | _, _ => none

/-- The text selected for `JSON.parse`: fence body if the fence matched,
then the brace span if the object regex matched. -/
def selectedJsonText (s : String) : String :=
  let t := match fenceSearch s.data with
    | some g => g
    | none => s.data
  match objSpan t with
  | some sp => ⟨sp⟩
  | none => ⟨t⟩

/-- Lines 1005-1014: parse the selected text; unwrap one `suggestions`
level when the parsed value carries a truthy object-typed `suggestions`
field; a parse failure yields the empty mapping. -/
def extractFromText (s : String) : Json :=
  match parseJsonText (selectedJsonText s) with
  | some parsed =>
    match getFieldJ parsed "suggestions" with
    | some ps => if jsTruthy ps && (ps.isObjB || ps.isArrB) then ps else parsed
    | none => parsed
  | none => Json.obj []

/-- Outcome of lines 954-991: an early `return`, a `TypeError` caught by the
`catch` (a `null` first completion), or the final value of `contentStr`
(`Json.str ""` when no branch assigned it). -/
inductive TryOutcome where
  | early (j : Json)
  | caught
  | content (c : Json)
deriving Repr

/-- The `message.content` / `text` drill-down shared by both completion-list
branches; `choice.output` handling differs between them and stays at the
call sites. -/
def choiceContent (choice : Json) : Option Json :=
  match fieldTruthy choice "message" with
  | some msg =>
    match fieldTruthy msg "content" with
    | some content => some content
    | none =>
      match fieldTruthy choice "text" with
      | some t => some t
      | none => none
  | none =>
    match fieldTruthy choice "text" with
    | some t => some t
    | none => none

def assistDrill (data : Json) : TryOutcome :=
  let sugg := fieldTruthy data "suggestions"
  -- lines 954-961: a truthy, object-typed, non-array `suggestions` is
  -- returned as-is unless it nests a truthy `choices` array
  let direct : Option TryOutcome :=
    match sugg with
    | some s =>
      if s.isObjB then
        match fieldTruthy s "choices" with
        | some c => if c.isArrB then none else some (.early s)
        | none => some (.early s)
      else none
    | none => none
  match direct with
  | some out => out
  | none =>
    -- the try block, lines 964-987
    let suggChoices : Option (List Json) :=
      match sugg with
      | some s =>
        match fieldTruthy s "choices" with
        | some (Json.arr (x :: xs)) => some (x :: xs)
        | _ => none
      | none => none
    match suggChoices with
    | some (Json.null :: _) => .caught
    | some (choice :: _) =>
      match choiceContent choice with
      | some c => .content c
      | none =>
        match fieldTruthy choice "output" with
        | some o => .content (Json.str (stringifyJson o))
        | none => .content (Json.str "")
    | _ =>
      match fieldTruthy data "choices" with
      | some (Json.arr (Json.null :: _)) => .caught
      | some (Json.arr (choice :: _)) =>
        match choiceContent choice with
        | some c => .content c
        | none => .content (Json.str (stringifyJson choice))
      | _ =>
        match sugg with
        | some (Json.str s) => .content (Json.str s)
        | _ =>
          match data with
          | Json.str s => .content (Json.str s)
          | _ =>
            match sugg with
            | some s => if s.isObjB || s.isArrB then .early s else .content (Json.str "")
            | none => .content (Json.str "")

def extractSuggestionsFromAssistResponse (data : Json) : Option Json :=
  if !jsTruthy data then some (Json.obj [])
  else
    match assistDrill data with
    | .early j => some j
    | .caught => some (Json.obj [])
    | .content c =>
      if !jsTruthy c then some (Json.obj [])
      else
        match c with
        | .str s => some (extractFromText s)
        | _ => none

/-! ### Concrete fixtures used by the theorems below -/

/-- A policy with one required text artifact and one required Yes/No choice
artifact — the schema of the spec scenarios. -/
def bizPiiPolicy : PolicyDocument :=
  { stages := [{ name := "Stage 1",
                 evidenceSet := [{ name := "Evidence 1", description := none,
                                   artifacts := [
                  { id := "a1", required := true,
                    details := { label := "Business Justification", type := "textinput",
                                 options := none } },
                  { id := "a2", required := true,
                    details := { label := "Contains PII", type := "radio",
                                 options := some ["Yes", "No"] } }] }] }] }

def piiSuggestions : List (String × Option String) :=
  [("Business Justification", some "Fraud detection"), ("Contains PII", some "Yes")]

/-- One non-empty text field whose element id `field-x` collides with the
slug of the suggestion label `Field X` while no data-label matches it. -/
def slugFallbackState : FormState :=
  { texts := [{ id := "field-x", label := "Something Else", required := false,
                value := "user text", aiOrig := none, badge := false }],
    groups := [] }

/-- A field reachable through the normalized lookup plus a second, non-empty
field whose id collides with the id-slug of the same suggestion label. -/
def normPlusFallbackState : FormState :=
  { texts := [{ id := "field-1", label := "Model Purpose", required := false,
                value := "", aiOrig := none, badge := false },
              { id := "model-purpose", label := "Other", required := false,
                value := "keep me", aiOrig := none, badge := false }],
    groups := [] }

/-- A single field labeled `Model Purpose` for the normalization example. -/
def modelPurposeState : FormState :=
  { texts := [{ id := "field-mp", label := "Model Purpose", required := false,
                value := "", aiOrig := none, badge := false }],
    groups := [] }

/-- A selected choice value carrying surrounding whitespace. -/
def untrimmedChoiceState : FormState :=
  { texts := [],
    groups := [{ label := "Risk Level",
                 opts := [{ value := " Maybe ", checked := true },
                          { value := "No", checked := false }],
                 badge := none }] }

/-- One user-filled text field; the suggestion map sends the empty string to
it twice, once through its exact label and once through the id-slug
fallback. -/
def emptyValueState : FormState :=
  { texts := [{ id := "field-beta", label := "Alpha", required := false,
                value := "a", aiOrig := none, badge := false }],
    groups := [] }

def emptyValueSuggestions : List (String × Option String) :=
  [("Alpha", some ""), ("Field Beta", some "")]

/-! ### Derived definitions used in the theorem statements and proofs -/

/-- A collected pair produced by a text field: underscore-normalized key and
trimmed value. -/
def textEntry (s : FormState) (x : String × FieldValue) : Prop :=
  ∃ f ∈ s.texts, x.1 = collectKey f.label ∧ x.2 = FieldValue.str (jsTrim f.value)

/-- A collected pair produced by a radio group: underscore-normalized key;
the literal values `Yes`/`No` of the first checked option coerce to
booleans, anything else passes through verbatim. -/
def choiceEntry (s : FormState) (x : String × FieldValue) : Prop :=
  ∃ g ∈ s.groups, ∃ o, g.opts.find? RadioOpt.checked = some o ∧ x.1 = collectKey g.label ∧
    ((o.value = "Yes" ∧ x.2 = FieldValue.bool true) ∨
     (o.value = "No" ∧ x.2 = FieldValue.bool false) ∨
     (o.value ≠ "Yes" ∧ o.value ≠ "No" ∧ x.2 = FieldValue.str o.value))

/-- The ordered text operations hitting one field during a pass. -/
def runOps (ops : List TextOp) (f : TextField) : TextField :=
  ops.foldl (fun x op => applyTextOp op x) f

/-- Operations addressed to position `i` within a write list. -/
def opsAt (i : Nat) (ws : List (Nat × TextOp)) : List TextOp :=
  (ws.filter (fun w => w.1 = i)).map Prod.snd

def entryWrites (k : Skel) (e : String × Option String) : List (Nat × TextOp) :=
  match e.2 with
  | none => []
  | some v => textWrites k e.1 v

def allWrites (k : Skel) (entries : List (String × Option String)) : List (Nat × TextOp) :=
  entries.flatMap (entryWrites k)

/-- The radio-branch component of one entry. -/
def gstep (k : Skel) (gs : List RadioGroup) (e : String × Option String) : List RadioGroup :=
  match e.2 with
  | none => gs
  | some v => radioStep k e.1 v gs

/-- The position the id-slug fallback would write for a label, when the
fallback is reachable for it. -/
def fallbackTarget (k : Skel) (label : String) : Option Nat :=
  if !exactHas k label && !radioHas k label then fallbackIdx k label else none

/-- The suggested value carried by a text operation. -/
def TextOp.constVal : TextOp → String
  | .fill v => v
  | .finput v => v

/-- The id-slug fallback writes of a pass, in order. -/
def finputConsts (ops : List TextOp) : List String :=
  ops.filterMap (fun op =>
    match op with
    | .finput v => some v
    | .fill _ => none)

/-- Replay of the fallback writes alone. -/
def runB (vs : List String) (f : TextField) : TextField :=
  vs.foldl (fun x v => setValueAndInput v x) f

/-- The render-time attributes of a group: label and option values. -/
def groupShape (g : RadioGroup) : String × List String :=
  (g.label, g.opts.map RadioOpt.value)

/-- Does some radio in the label cluster match the value case-insensitively?
This depends only on the group shapes. -/
def matchesCluster (gs : List RadioGroup) (label v : String) : Bool :=
  gs.any fun g => g.label = label && g.opts.any (fun o => jsLower o.value = jsLower v)

/-- The checked-state view of a group: label and per-option checked flags. -/
def ccShape (g : RadioGroup) : String × List Bool :=
  (g.label, g.opts.map RadioOpt.checked)

/-- Modelled from the spec: the claim describes parsing "the first balanced
object span" of the drilled text; the source instead applies the greedy
regex from the first opening brace to the last closing brace.  This
definition follows the wording of the spec for comparison. -/
def balancedTake : Nat → List Char → List Char → Option (List Char)
  | _, _, [] => none
  | depth, acc, c :: rest =>
    if c = lbraceChar then balancedTake (depth + 1) (c :: acc) rest
    else if c = rbraceChar then
      if depth = 1 then some (c :: acc).reverse
      else balancedTake (depth - 1) (c :: acc) rest
    else balancedTake depth (c :: acc) rest

/-- Modelled from the spec: the first balanced brace span of a text. -/
def specFirstBalancedSpan (s : String) : Option String :=
  match s.data.dropWhile (fun c => c ≠ lbraceChar) with
  | [] => none
  | c :: rest => (balancedTake 1 [c] rest).map (fun cs => ⟨cs⟩)

/-! ### Extractor fixtures -/

def fencedResponse : Json := Json.str "```json\n\x7b\"a\":\"1\"\x7d\n```"

def proseResponse : Json := Json.str "Here are the fields: \x7b\"a\":\"1\"\x7d thanks"

def garbageResponse : Json := Json.str "no json here"

/-- A completion whose message content is a number: truthy but not a
string. -/
def numericContentResponse : Json :=
  Json.obj [("choices", Json.arr [Json.obj [("message",
      Json.obj [("content", Json.num "42")])]])]

def drillResponse : Json :=
  Json.obj [("choices", Json.arr [Json.obj [("message",
      Json.obj [("content", Json.str "\x7b\"x\":\"y\"\x7d")])]])]

def twoObjectContent : String := "\x7b\"x\":\"y\"\x7d and \x7b\"z\":\"w\"\x7d"

def twoObjectResponse : Json :=
  Json.obj [("choices", Json.arr [Json.obj [("message",
      Json.obj [("content", Json.str twoObjectContent)])]])]

def outputChoiceResponse : Json :=
  Json.obj [("choices", Json.arr [Json.obj [("output", Json.obj [("x", Json.str "y")])]])]

/-! ### Claim C3 -/

/-- Claim C3, counterexample.  On the freshly rendered schema the first
option of the choice group already carries the `checked` attribute, so the
reconciliation guard skips the group and no group-level provenance marker is
ever attached: after applying the suggestion map the group badge is still
`none`, contradicting the claimed "selects the Yes option with a group-level
provenance marker set". -/
theorem C3_counterexample :
    (populateSuggestedFields piiSuggestions (generateDynamicFields bizPiiPolicy)).groups.map
        RadioGroup.badge = [none] ∧
    (generateDynamicFields bizPiiPolicy).groups.map
        (fun g => g.opts.map RadioOpt.checked) = [[true, false]] := by
  decide

/-- Claim C3, amended.  Applying
`(Business Justification, Fraud detection), (Contains PII, Yes)` to the
freshly rendered schema fills the text field with value, stored original and
badge; the choice group is left exactly as rendered — `Yes` is selected only
because the first option is pre-checked at render time, and no group-level
marker is set.  A subsequent user edit of the text field clears its marker;
the choice group keeps having no marker. -/
theorem C3_scenario_amended :
    (populateSuggestedFields piiSuggestions (generateDynamicFields bizPiiPolicy)).texts =
      [{ id := "field-a1", label := "Business Justification", required := true,
         value := "Fraud detection", aiOrig := some "Fraud detection", badge := true }] ∧
    (populateSuggestedFields piiSuggestions (generateDynamicFields bizPiiPolicy)).groups =
      (generateDynamicFields bizPiiPolicy).groups ∧
    (generateDynamicFields bizPiiPolicy).groups =
      [{ label := "Contains PII",
         opts := [{ value := "Yes", checked := true }, { value := "No", checked := false }],
         badge := none }] ∧
    (userEditText (populateSuggestedFields piiSuggestions (generateDynamicFields bizPiiPolicy))
        0 "User edit").texts =
      [{ id := "field-a1", label := "Business Justification", required := true,
         value := "User edit", aiOrig := none, badge := false }] ∧
    (userEditText (populateSuggestedFields piiSuggestions (generateDynamicFields bizPiiPolicy))
        0 "User edit").groups = (generateDynamicFields bizPiiPolicy).groups := by
  decide

/-! ### Claim C4 -/

/-- Claim C4, counterexample.  With a policy selected, one file attached and
the scenario schema freshly rendered, `validateForm` reports a single error:
the radio inputs are rendered without the `required` attribute (and their
first option is pre-checked), so the required choice field never produces a
validation error — the claimed count of exactly two is wrong. -/
theorem C4_counterexample :
    validateForm (some "External Model Upload") 1 (generateDynamicFields bizPiiPolicy) =
      ["Business Justification is required"] ∧
    ¬ (validateForm (some "External Model Upload") 1
        (generateDynamicFields bizPiiPolicy)).length = 2 := by
  decide

/-- Claim C4, amended.  Submitting the scenario schema with a policy
selected and a file attached yields exactly one validation error — for the
required text field — and no network request is made; the rendered choice
group exists but contributes no error. -/
theorem C4_singleError_amended :
    (validateForm (some "External Model Upload") 1
        (generateDynamicFields bizPiiPolicy)).length = 1 ∧
    validateForm (some "External Model Upload") 1 (generateDynamicFields bizPiiPolicy) =
      ["Business Justification is required"] ∧
    handleSubmitRequest (some "External Model Upload") 1
        (generateDynamicFields bizPiiPolicy) = none ∧
    (generateDynamicFields bizPiiPolicy).groups.length = 1 := by
  decide

/-! ### Claim C5 -/

/-- Claim C5, counterexample.  A selected choice value ` Maybe ` (neither
`Yes` nor `No`) is collected verbatim, not trimmed: the claimed "every other
collected value is the field's value as a trimmed string" fails for choice
values. -/
theorem C5_counterexample :
    collectDynamicFields untrimmedChoiceState = [("risk_level", FieldValue.str " Maybe ")] ∧
    FieldValue.str " Maybe " ≠ FieldValue.str (jsTrim " Maybe ") := by
  decide

theorem mem_upsert {m : List (String × FieldValue)} {k : String} {v : FieldValue}
    {x : String × FieldValue} (hx : x ∈ upsert m k v) : x ∈ m ∨ x = (k, v) := by
  unfold upsert at hx
  split at hx
  · rcases List.mem_map.mp hx with ⟨p, hp, he⟩
    by_cases h : p.1 = k
    · simp only [if_pos h] at he
      exact Or.inr he.symm
    · simp only [if_neg h] at he
      exact Or.inl (he ▸ hp)
  · rcases List.mem_append.mp hx with h | h
    · exact Or.inl h
    · simp only [List.mem_singleton] at h
      exact Or.inr h

theorem mem_foldl_step {α : Type} {step : List (String × FieldValue) → α → List (String × FieldValue)}
    {Q : α → (String × FieldValue) → Prop}
    (H : ∀ m e x, x ∈ step m e → x ∈ m ∨ Q e x) :
    ∀ (l : List α) (acc : List (String × FieldValue)) (x : String × FieldValue),
      x ∈ l.foldl step acc → x ∈ acc ∨ ∃ e ∈ l, Q e x := by
  intro l
  induction l with
  | nil => exact fun acc x hx => Or.inl hx
  | cons e rest ih =>
    intro acc x hx
    rcases ih (step acc e) x hx with h | ⟨e', he', hq⟩
    · rcases H acc e x h with h' | hq
      · exact Or.inl h'
      · exact Or.inr ⟨e, by simp, hq⟩
    · exact Or.inr ⟨e', by simp [he'], hq⟩

/-- Claim C5, amended.  Every pair produced by `collectDynamicFields` comes
from a text field — underscore-normalized key, trimmed value — or from the
first checked option of a radio group — underscore-normalized key, the
literal values `Yes`/`No` coerced to booleans, and any other selected value
passed through verbatim (not trimmed). -/
theorem C5_collect_amended (s : FormState) (x : String × FieldValue)
    (hx : x ∈ collectDynamicFields s) : textEntry s x ∨ choiceEntry s x := by
  unfold collectDynamicFields at hx
  have H2 : ∀ (m : List (String × FieldValue)) (g : RadioGroup) (x' : String × FieldValue),
      x' ∈ (fun (m : List (String × FieldValue)) (g : RadioGroup) =>
      match g.opts.find? RadioOpt.checked with
      | some o =>
        if o.value = "Yes" || o.value = "No" then
          upsert m (collectKey g.label) (FieldValue.bool (o.value = "Yes"))
        else upsert m (collectKey g.label) (FieldValue.str o.value)
      | none => m) m g → x' ∈ m ∨
        ∃ o, g.opts.find? RadioOpt.checked = some o ∧ x'.1 = collectKey g.label ∧
          ((o.value = "Yes" ∧ x'.2 = FieldValue.bool true) ∨
           (o.value = "No" ∧ x'.2 = FieldValue.bool false) ∨
           (o.value ≠ "Yes" ∧ o.value ≠ "No" ∧ x'.2 = FieldValue.str o.value)) := by
    intro m g x' hmem
    dsimp only at hmem
    split at hmem
    next o hfind =>
      split at hmem
      next hcond =>
        rcases mem_upsert hmem with h | h
        · exact Or.inl h
        · refine Or.inr ⟨o, hfind, by simp [h], ?_⟩
          by_cases hy : o.value = "Yes"
          · exact Or.inl ⟨hy, by simp [h, hy]⟩
          · have hn : o.value = "No" := by
              rcases Bool.or_eq_true_iff.mp hcond with hc | hc
              · exact absurd (of_decide_eq_true hc) hy
              · exact of_decide_eq_true hc
            refine Or.inr (Or.inl ⟨hn, ?_⟩)
            have hdec : (decide (o.value = "Yes")) = false := by
              simp [hy]
            simp [h, hdec]
      next hcond =>
        rcases mem_upsert hmem with h | h
        · exact Or.inl h
        · have hy : ¬ o.value = "Yes" := by
            intro hc
            exact hcond (by simp [hc])
          have hn : ¬ o.value = "No" := by
            intro hc
            exact hcond (by simp [hc])
          exact Or.inr ⟨o, hfind, by simp [h], Or.inr (Or.inr ⟨hy, hn, by simp [h]⟩)⟩
    next => exact Or.inl hmem
  have H1 : ∀ (m : List (String × FieldValue)) (f : TextField) (x' : String × FieldValue),
      x' ∈ (fun (m : List (String × FieldValue)) (f : TextField) =>
      upsert m (collectKey f.label) (FieldValue.str (jsTrim f.value))) m f → x' ∈ m ∨
        (x'.1 = collectKey f.label ∧ x'.2 = FieldValue.str (jsTrim f.value)) := by
    intro m f x' hmem
    rcases mem_upsert hmem with h | h
    · exact Or.inl h
    · exact Or.inr ⟨by simp [h], by simp [h]⟩
  rcases mem_foldl_step H2 s.groups _ x hx with h | ⟨g, hg, o, ho, hk, hv⟩
  · rcases mem_foldl_step H1 s.texts [] x h with h' | ⟨f, hf, hk, hv⟩
    · simp at h'
    · exact Or.inl ⟨f, hf, hk, hv⟩
  · exact Or.inr ⟨g, hg, o, ho, hk, hv⟩

/-- Concrete instantiation of the amended collection theorem at the
untrimmed-choice state. -/
theorem C5_witness :
    textEntry untrimmedChoiceState ("risk_level", FieldValue.str " Maybe ") ∨
    choiceEntry untrimmedChoiceState ("risk_level", FieldValue.str " Maybe ") :=
  C5_collect_amended untrimmedChoiceState ("risk_level", FieldValue.str " Maybe ") (by decide)

/-! ### Claim C9 -/

theorem editsKeepCleared (g : TextField) (hg : g.aiOrig = none) (us : List String) :
    (us.foldl (fun x u => setValueAndInput u x) g).aiOrig = none ∧
    (us.foldl (fun x u => setValueAndInput u x) g).badge = g.badge := by
  induction us generalizing g with
  | nil => exact ⟨hg, rfl⟩
  | cons u rest ih =>
    have h1 : (setValueAndInput u g).aiOrig = none := by
      simp [setValueAndInput, inputListener, hg]
    have h2 : (setValueAndInput u g).badge = g.badge := by
      simp [setValueAndInput, inputListener, hg]
    simpa [h2] using ih (setValueAndInput u g) h1

/-- Claim C9, confirmed.  For a field carrying provenance `v`: an input
event with a value different from `v` clears the stored original and the
badge; an input event with exactly `v` keeps both; and once cleared, no
sequence of later edits — including retyping exactly `v` — restores the
stored original or the badge. -/
theorem C9_provenanceClearing (f : TextField) (v w : String) (hv : f.aiOrig = some v)
    (hw : w ≠ v) :
    ((setValueAndInput w f).aiOrig = none ∧ (setValueAndInput w f).badge = false) ∧
    ((setValueAndInput v f).aiOrig = some v ∧ (setValueAndInput v f).badge = f.badge) ∧
    (∀ us : List String,
      (us.foldl (fun x u => setValueAndInput u x) (setValueAndInput w f)).aiOrig = none ∧
      (us.foldl (fun x u => setValueAndInput u x) (setValueAndInput w f)).badge = false) := by
  have hclear : (setValueAndInput w f).aiOrig = none ∧ (setValueAndInput w f).badge = false := by
    constructor <;> simp [setValueAndInput, inputListener, hv, hw]
  refine ⟨hclear, ⟨by simp [setValueAndInput, inputListener, hv], by
    simp [setValueAndInput, inputListener, hv]⟩, fun us => ?_⟩
  have := editsKeepCleared (setValueAndInput w f) hclear.1 us
  exact ⟨this.1, by rw [this.2, hclear.2]⟩

/-- Concrete instantiation of the provenance-clearing theorem. -/
theorem C9_witness :
    ((setValueAndInput "edited"
        { id := "f", label := "L", required := false, value := "ai",
          aiOrig := some "ai", badge := true }).aiOrig = none ∧
      (setValueAndInput "edited"
        { id := "f", label := "L", required := false, value := "ai",
          aiOrig := some "ai", badge := true }).badge = false) ∧
    ((setValueAndInput "ai"
        { id := "f", label := "L", required := false, value := "ai",
          aiOrig := some "ai", badge := true }).aiOrig = some "ai" ∧
      (setValueAndInput "ai"
        { id := "f", label := "L", required := false, value := "ai",
          aiOrig := some "ai", badge := true }).badge =
        ({ id := "f", label := "L", required := false, value := "ai",
           aiOrig := some "ai", badge := true } : TextField).badge) ∧
    (∀ us : List String,
      (us.foldl (fun x u => setValueAndInput u x) (setValueAndInput "edited"
        { id := "f", label := "L", required := false, value := "ai",
          aiOrig := some "ai", badge := true })).aiOrig = none ∧
      (us.foldl (fun x u => setValueAndInput u x) (setValueAndInput "edited"
        { id := "f", label := "L", required := false, value := "ai",
          aiOrig := some "ai", badge := true })).badge = false) :=
  C9_provenanceClearing
    { id := "f", label := "L", required := false, value := "ai",
      aiOrig := some "ai", badge := true } "ai" "edited" rfl (by decide)

/-! ### Per-field decomposition of the text writes -/

theorem applyWrite_getElem? (ts : List TextField) (w : Nat × TextOp) (i : Nat) :
    (applyWrite ts w)[i]? = if w.1 = i then ts[i]?.map (applyTextOp w.2) else ts[i]? := by
  unfold applyWrite
  rcases hw : ts[w.1]? with _ | f
  · by_cases h : w.1 = i
    · subst h
      simp [hw]
    · simp [h]
  · by_cases h : w.1 = i
    · subst h
      simp [List.getElem?_set_self', hw]
    · simp [List.getElem?_set_ne h, h]

theorem opsAt_cons (i : Nat) (w : Nat × TextOp) (ws : List (Nat × TextOp)) :
    opsAt i (w :: ws) = if w.1 = i then w.2 :: opsAt i ws else opsAt i ws := by
  by_cases h : w.1 = i <;> simp [opsAt, List.filter_cons, h]

theorem opsAt_append (i : Nat) (a b : List (Nat × TextOp)) :
    opsAt i (a ++ b) = opsAt i a ++ opsAt i b := by
  simp [opsAt]

theorem applyWrites_getElem? (ws : List (Nat × TextOp)) (ts : List TextField) (i : Nat) :
    (applyWrites ws ts)[i]? = ts[i]?.map (runOps (opsAt i ws)) := by
  induction ws generalizing ts with
  | nil =>
    show ts[i]? = ts[i]?.map (runOps (opsAt i []))
    cases ts[i]? <;> rfl
  | cons w rest ih =>
    show (applyWrites rest (applyWrite ts w))[i]? = _
    rw [ih, applyWrite_getElem?, opsAt_cons]
    by_cases h : w.1 = i
    · rw [if_pos h, if_pos h]
      cases ts[i]? <;> simp [runOps]
    · rw [if_neg h, if_neg h]

theorem applyWrites_append (a b : List (Nat × TextOp)) (ts : List TextField) :
    applyWrites (a ++ b) ts = applyWrites b (applyWrites a ts) := by
  simp [applyWrites]

theorem stepEntry_texts (k : Skel) (st : FormState) (e : String × Option String) :
    (stepEntry k st e).texts = applyWrites (entryWrites k e) st.texts := by
  rcases e with ⟨l, _ | v⟩ <;> simp [stepEntry, entryWrites, applyWrites]

theorem stepEntry_groups (k : Skel) (st : FormState) (e : String × Option String) :
    (stepEntry k st e).groups = gstep k st.groups e := by
  rcases e with ⟨l, _ | v⟩ <;> simp [stepEntry, gstep]

theorem foldl_stepEntry_texts (k : Skel) (entries : List (String × Option String))
    (st : FormState) :
    (entries.foldl (stepEntry k) st).texts = applyWrites (allWrites k entries) st.texts := by
  induction entries generalizing st with
  | nil => simp [allWrites, applyWrites]
  | cons e rest ih =>
    rw [List.foldl_cons, ih, stepEntry_texts]
    rw [show allWrites k (e :: rest) = entryWrites k e ++ allWrites k rest from by
      simp [allWrites]]
    rw [applyWrites_append]

theorem foldl_stepEntry_groups (k : Skel) (entries : List (String × Option String))
    (st : FormState) :
    (entries.foldl (stepEntry k) st).groups = entries.foldl (gstep k) st.groups := by
  induction entries generalizing st with
  | nil => rfl
  | cons e rest ih =>
    rw [List.foldl_cons, List.foldl_cons, ih, stepEntry_groups]

theorem populate_texts (entries : List (String × Option String)) (s : FormState) :
    (populateSuggestedFields entries s).texts = applyWrites (allWrites (skel s) entries) s.texts :=
  foldl_stepEntry_texts (skel s) entries s

theorem populate_groups (entries : List (String × Option String)) (s : FormState) :
    (populateSuggestedFields entries s).groups = entries.foldl (gstep (skel s)) s.groups :=
  foldl_stepEntry_groups (skel s) entries s

/-- A fill on a field whose trimmed value is non-empty is the identity, and
so is a whole pass of fills. -/
theorem runOps_fill_nonempty (ops : List TextOp) (f : TextField)
    (hops : ∀ op ∈ ops, ∃ v, op = TextOp.fill v) (hne : jsTrim f.value ≠ "") :
    runOps ops f = f := by
  induction ops with
  | nil => rfl
  | cons op rest ih =>
    rcases hops op (by simp) with ⟨v, rfl⟩
    show runOps rest (fillIfEmpty v f) = f
    rw [fillIfEmpty, if_neg hne]
    exact ih (fun op h => hops op (by simp [h]))

/-- Every write of one entry is either a fill with the suggested value or
the one id-slug fallback write. -/
theorem mem_textWrites {k : Skel} {label v : String} {w : Nat × TextOp}
    (hw : w ∈ textWrites k label v) :
    w.2 = TextOp.fill v ∨ (fallbackTarget k label = some w.1 ∧ w.2 = TextOp.finput v) := by
  unfold textWrites at hw
  rcases List.mem_append.mp hw with h | h
  · left
    split at h <;> (rcases List.mem_map.mp h with ⟨j, _, he⟩; simpa using congrArg Prod.snd he.symm)
  · right
    split at h
    next hcond =>
      unfold fallbackTarget
      rw [if_pos hcond]
      rcases hfb : fallbackIdx k label with _ | j
      · rw [hfb] at h
        simp at h
      · rw [hfb] at h
        simp only [List.mem_singleton] at h
        subst h
        exact ⟨rfl, rfl⟩
    next => simp at h

theorem mem_allWrites {k : Skel} {entries : List (String × Option String)}
    {w : Nat × TextOp} (hw : w ∈ allWrites k entries) :
    ∃ e ∈ entries, ∃ v, e.2 = some v ∧ w ∈ textWrites k e.1 v := by
  rcases List.mem_flatMap.mp hw with ⟨e, he, hmem⟩
  rcases e with ⟨l, _ | v⟩
  · simp [entryWrites] at hmem
  · exact ⟨(l, some v), he, v, rfl, hmem⟩

/-! ### Claim C1 -/

/-- Claim C1, counterexample.  The suggestion label `Field X` matches no
`data-label` and no radio group, so the id-slug fallback fires; its target
`field-x` holds the non-empty value `user text`, and the fallback overwrites
it anyway — the non-clobber guard does not hold on the fallback path. -/
theorem C1_counterexample :
    slugFallbackState.texts.map TextField.value = ["user text"] ∧
    jsTrim "user text" ≠ "" ∧
    (populateSuggestedFields [("Field X", some "ai")] slugFallbackState).texts.map
        TextField.value = ["ai"] := by
  decide

/-- Claim C1, amended.  A field whose trimmed value is non-empty is left
completely unchanged by a pass, provided no suggestion label reaches the
field through the id-slug fallback; the exact-label and normalized-label
paths never write a non-empty field, while the fallback path writes its
target unconditionally. -/
theorem C1_nonEmptyPreserved_amended (s : FormState)
    (entries : List (String × Option String)) (i : Nat) (f : TextField)
    (hf : s.texts[i]? = some f) (hne : jsTrim f.value ≠ "")
    (hnofb : ∀ e ∈ entries, fallbackTarget (skel s) e.1 ≠ some i) :
    (populateSuggestedFields entries s).texts[i]? = some f := by
  rw [populate_texts, applyWrites_getElem?, hf]
  have hops : ∀ op ∈ opsAt i (allWrites (skel s) entries), ∃ v, op = TextOp.fill v := by
    intro op hop
    rcases List.mem_map.mp hop with ⟨w, hwf, rfl⟩
    have hwi : w.1 = i := by
      have := (List.mem_filter.mp hwf).2
      simpa using this
    rcases mem_allWrites (List.mem_filter.mp hwf).1 with ⟨e, he, v, hev, hwmem⟩
    rcases mem_textWrites hwmem with h | ⟨htgt, _⟩
    · exact ⟨v, h⟩
    · exact absurd (hwi ▸ htgt) (hnofb e he)
  simp [runOps_fill_nonempty _ f hops hne]

/-- Concrete instantiation of the amended non-clobber theorem: an exact-label
suggestion leaves the non-empty field of `slugFallbackState` unchanged. -/
theorem C1_witness :
    (populateSuggestedFields [("Something Else", some "ai")] slugFallbackState).texts[0]? =
      some { id := "field-x", label := "Something Else", required := false,
             value := "user text", aiOrig := none, badge := false } :=
  C1_nonEmptyPreserved_amended slugFallbackState [("Something Else", some "ai")] 0 _
    rfl (by decide) (by decide)

/-! ### Claim C2 -/

theorem value_setValueAndInput (v : String) (f : TextField) :
    (setValueAndInput v f).value = v := by
  rcases f with ⟨fi, fl, fr, fv, _ | o, fb⟩
  · rfl
  · simp only [setValueAndInput, inputListener]
    split <;> rfl

theorem runOps_append (a b : List TextOp) (f : TextField) :
    runOps (a ++ b) f = runOps b (runOps a f) := by
  simp [runOps]

theorem mem_exactTextIdxs {k : Skel} {label : String} {i : Nat} :
    i ∈ exactTextIdxs k label ↔ ∃ p, k.tlabs[i]? = some p ∧ p.1 = label := by
  unfold exactTextIdxs
  rw [List.mem_filter, List.mem_range]
  constructor
  · rintro ⟨hlt, hcond⟩
    rcases hp : k.tlabs[i]? with _ | p
    · rw [hp] at hcond
      simp at hcond
    · rw [hp] at hcond
      exact ⟨p, rfl, by simpa using hcond⟩
  · rintro ⟨p, hp, hl⟩
    have hlt : i < k.tlabs.length := (List.getElem?_eq_some_iff.mp hp).1
    refine ⟨hlt, ?_⟩
    rw [hp]
    simpa using hl

theorem opsAt_map_pair_not_mem {i : Nat} {l : List Nat} {op : TextOp} (h : i ∉ l) :
    opsAt i (l.map (fun j => (j, op))) = [] := by
  induction l with
  | nil => rfl
  | cons j rest ih =>
    rw [List.map_cons, opsAt_cons]
    have hij : ¬ ((j, op).1 = i) := by
      intro hji
      exact h (by simp at hji; simp [hji])
    rw [if_neg hij]
    exact ih (fun hm => h (by simp [hm]))

/-- Claim C2, counterexample.  For the suggestion key `model purpose` the
exact lookup is empty, the normalized lookup yields a non-empty result set
(the `Model Purpose` field), and yet the id-slug fallback — a later
strategy — is applied as well: it overwrites the unrelated non-empty field
whose id is `model-purpose`.  Resolution does not stop at the first
non-empty result set. -/
theorem C2_counterexample :
    exactHas (skel normPlusFallbackState) "model purpose" = false ∧
    normLookupIdxs (skel normPlusFallbackState) "model purpose" = [0] ∧
    normPlusFallbackState.texts.map TextField.value = ["", "keep me"] ∧
    (populateSuggestedFields [("model purpose", some "X")] normPlusFallbackState).texts.map
        TextField.value = ["X", "X"] := by
  decide

/-- Claim C2, amended.  (a) When the exact label lookup is non-empty it wins:
fields with a different label are untouched by the entry.  (b) When the
exact lookup is empty and the label matches no radio group, the id-slug
fallback write is applied — regardless of whether the normalized lookup
matched — leaving the suggested value in its target.  (c) The lookup keys
`Model Purpose` (exact), `model purpose` and `model_purpose` (normalized,
underscore variant) all resolve to the field with raw label
`Model Purpose`. -/
theorem C2_resolution_amended :
    (∀ (s : FormState) (l v : String) (i : Nat) (f : TextField),
       exactHas (skel s) l = true → s.texts[i]? = some f → f.label ≠ l →
       (populateSuggestedFields [(l, some v)] s).texts[i]? = some f) ∧
    (∀ (s : FormState) (l v : String) (j : Nat),
       exactHas (skel s) l = false → radioHas (skel s) l = false →
       fallbackIdx (skel s) l = some j →
       ((populateSuggestedFields [(l, some v)] s).texts[j]?).map TextField.value = some v) ∧
    (exactTextIdxs (skel modelPurposeState) "Model Purpose" = [0] ∧
     exactHas (skel modelPurposeState) "model purpose" = false ∧
     normLookupIdxs (skel modelPurposeState) "model purpose" = [0] ∧
     exactHas (skel modelPurposeState) "model_purpose" = false ∧
     normLookupIdxs (skel modelPurposeState) "model_purpose" = [0]) := by
  refine ⟨?_, ?_, by decide⟩
  · intro s l v i f hex hf hlab
    rw [populate_texts, applyWrites_getElem?, hf]
    have hwrites : allWrites (skel s) [(l, some v)] = textWrites (skel s) l v := by
      simp [allWrites, entryWrites]
    have hnot : i ∉ exactTextIdxs (skel s) l := by
      intro hmem
      rcases mem_exactTextIdxs.mp hmem with ⟨p, hp, hpl⟩
      have hskel : (skel s).tlabs[i]? = some (f.label, f.id) := by
        simp [skel, hf]
      rw [hskel] at hp
      cases hp
      exact hlab hpl
    have hsecond : (!exactHas (skel s) l && !radioHas (skel s) l) = false := by
      rw [hex]
      rfl
    rw [hwrites]
    rw [show textWrites (skel s) l v =
      (exactTextIdxs (skel s) l).map (fun i => (i, TextOp.fill v)) from by
        unfold textWrites
        rw [if_pos hex, hsecond]
        simp]
    rw [opsAt_map_pair_not_mem hnot]
    rfl
  · intro s l v j hex hrad hfb
    have hjmem := List.mem_of_mem_head? (Option.mem_def.mpr hfb)
    have hjlt : j < s.texts.length := by
      have := List.mem_range.mp (List.mem_filter.mp hjmem).1
      simpa [skel] using this
    rw [populate_texts, applyWrites_getElem?, List.getElem?_eq_getElem hjlt]
    have hwrites : allWrites (skel s) [(l, some v)] = textWrites (skel s) l v := by
      simp [allWrites, entryWrites]
    have hcond : (!exactHas (skel s) l && !radioHas (skel s) l) = true := by
      rw [hex, hrad]
      rfl
    have hsplit : textWrites (skel s) l v =
        (normLookupIdxs (skel s) l).map (fun i => (i, TextOp.fill v)) ++
          [(j, TextOp.finput v)] := by
      unfold textWrites
      rw [if_neg (by rw [hex]; exact Bool.false_ne_true), if_pos hcond, hfb]
    rw [hwrites, hsplit, opsAt_append]
    rw [show opsAt j [(j, TextOp.finput v)] = [TextOp.finput v] from by
      simp [opsAt]]
    simp [runOps_append, runOps, applyTextOp, value_setValueAndInput]

/-- Concrete instantiations of the amended resolution theorem: the exact
path leaves differently-labeled fields alone, and the fallback write lands
its value. -/
theorem C2_witness :
    (populateSuggestedFields [("Model Purpose", some "zz")]
        normPlusFallbackState).texts[1]? =
      some { id := "model-purpose", label := "Other", required := false,
             value := "keep me", aiOrig := none, badge := false } ∧
    ((populateSuggestedFields [("Field X", some "ai")] slugFallbackState).texts[0]?).map
        TextField.value = some "ai" :=
  ⟨C2_resolution_amended.1 normPlusFallbackState "Model Purpose" "zz" 1 _ (by decide) rfl
     (by decide),
   C2_resolution_amended.2.1 slugFallbackState "Field X" "ai" 0 (by decide) (by decide)
     (by decide)⟩

/-! ### Claim C6 -/

/-- Claim C6, counterexample.  A completion whose `message.content` is the
number `42` — truthy but not a string — reaches `contentStr.match(...)`
outside the `try` block: the `TypeError` escapes the function (`none` in
this model), so the extractor does not hold "never raises" for every raw
response. -/
theorem C6_counterexample :
    jsTruthy (Json.num "42") = true ∧
    Json.isStrB (Json.num "42") = false ∧
    extractSuggestionsFromAssistResponse numericContentResponse = none :=
  ⟨rfl, rfl, rfl⟩

/-- Claim C6, amended.  The extractor raises (lets a `TypeError` escape)
exactly when the drilled `contentStr` is truthy and not a string; whenever
the selected text fails to parse the result is the empty mapping; and the
fenced, prose-embedded and garbage examples behave as stated. -/
theorem C6_extract_amended :
    (∀ data : Json, extractSuggestionsFromAssistResponse data = none ↔
       (jsTruthy data = true ∧ ∃ c, assistDrill data = TryOutcome.content c ∧
        jsTruthy c = true ∧ c.isStrB = false)) ∧
    (∀ s : String, parseJsonText (selectedJsonText s) = none →
       extractFromText s = Json.obj []) ∧
    (extractSuggestionsFromAssistResponse fencedResponse =
        some (Json.obj [("a", Json.str "1")]) ∧
     extractSuggestionsFromAssistResponse proseResponse =
        some (Json.obj [("a", Json.str "1")]) ∧
     extractSuggestionsFromAssistResponse garbageResponse = some (Json.obj [])) := by
  refine ⟨?_, ?_, rfl, rfl, rfl⟩
  · intro data
    unfold extractSuggestionsFromAssistResponse
    by_cases hd : jsTruthy data
    · rw [if_neg (by simp [hd])]
      rcases hout : assistDrill data with j | _ | c
      · simp [hout]
      · simp [hout]
      · dsimp only
        by_cases hc : jsTruthy c
        · rw [hc]
          cases c <;> simp_all [Json.isStrB]
        · have hcf : jsTruthy c = false := by simpa using hc
          rw [hcf]
          simp [hcf]
    · rw [if_pos (by simp [hd])]
      simp [hd]
  · intro s h
    unfold extractFromText
    rw [h]

/-- Concrete instantiation of the parse-failure clause of the amended
extractor theorem. -/
theorem C6_witness : extractFromText "no json here" = Json.obj [] :=
  C6_extract_amended.2.1 "no json here" rfl

/-! ### Claim C7 -/

/-- Claim C7, counterexample.  For a drilled text holding two objects, the
spec-described "first balanced object span" is the first object and parses
to `x ↦ y`; the source instead takes the greedy span from the first `{` to
the last `}`, which fails to parse, so the extractor returns the empty
mapping.  And for a first alternative carrying only an `output` field, the
source serializes the whole alternative — not the `output` field — so the
`output` wrapper survives into the parsed result. -/
theorem C7_counterexample :
    specFirstBalancedSpan twoObjectContent = some "\x7b\"x\":\"y\"\x7d" ∧
    parseJsonText "\x7b\"x\":\"y\"\x7d" = some (Json.obj [("x", Json.str "y")]) ∧
    extractSuggestionsFromAssistResponse twoObjectResponse = some (Json.obj []) ∧
    Json.obj [] ≠ Json.obj [("x", Json.str "y")] ∧
    extractSuggestionsFromAssistResponse outputChoiceResponse =
      some (Json.obj [("output", Json.obj [("x", Json.str "y")])]) ∧
    Json.obj [("output", Json.obj [("x", Json.str "y")])] ≠ Json.obj [("x", Json.str "y")] := by
  refine ⟨rfl, rfl, rfl, by simp, rfl, ?_⟩
  intro h
  injection h with h1
  simp at h1

/-- Claim C7, amended.  For a top-level completion list the extractor takes
the first alternative and reads its message content (else its plain text)
via `choiceContent`; when that yields a non-empty string the usual text
pipeline runs on it — taking the span from the first opening brace to the
last closing brace, not a balanced span.  The stated drill-down example
holds; an alternative carrying only `output` is serialized whole. -/
theorem C7_drilldown_amended :
    (∀ (choice : Json) (rest : List Json) (s : String),
       choiceContent choice = some (Json.str s) → s ≠ "" →
       extractSuggestionsFromAssistResponse
           (Json.obj [("choices", Json.arr (choice :: rest))]) =
         some (extractFromText s)) ∧
    extractSuggestionsFromAssistResponse drillResponse =
      some (Json.obj [("x", Json.str "y")]) ∧
    extractSuggestionsFromAssistResponse outputChoiceResponse =
      some (Json.obj [("output", Json.obj [("x", Json.str "y")])]) := by
  refine ⟨?_, rfl, rfl⟩
  intro choice rest s hcc hs
  have hdrill : assistDrill (Json.obj [("choices", Json.arr (choice :: rest))]) =
      TryOutcome.content (Json.str s) := by
    cases choice with
    | null => simp [choiceContent, fieldTruthy, getFieldJ] at hcc
    | bool b => simp [choiceContent, fieldTruthy, getFieldJ] at hcc
    | num lex => simp [choiceContent, fieldTruthy, getFieldJ] at hcc
    | str t => simp [choiceContent, fieldTruthy, getFieldJ] at hcc
    | arr xs => simp [choiceContent, fieldTruthy, getFieldJ] at hcc
    | obj kvs =>
      unfold assistDrill
      rw [show fieldTruthy (Json.obj [("choices", Json.arr (Json.obj kvs :: rest))])
            "suggestions" = none from rfl]
      dsimp only
      rw [show fieldTruthy (Json.obj [("choices", Json.arr (Json.obj kvs :: rest))])
            "choices" = some (Json.arr (Json.obj kvs :: rest)) from rfl]
      dsimp only
      rw [hcc]
  unfold extractSuggestionsFromAssistResponse
  rw [hdrill]
  dsimp only
  simp [jsTruthy, hs]

/-- Concrete instantiation of the amended drill-down theorem. -/
theorem C7_witness :
    extractSuggestionsFromAssistResponse drillResponse =
      some (extractFromText "\x7b\"x\":\"y\"\x7d") :=
  C7_drilldown_amended.1 (Json.obj [("message",
      Json.obj [("content", Json.str "\x7b\"x\":\"y\"\x7d")])]) [] "\x7b\"x\":\"y\"\x7d"
    rfl (by decide)

/-! ### Claim C10 -/

theorem foldl_appendState_groups (l : List FormState) (acc : FormState) :
    (l.foldl appendState acc).groups = acc.groups ++ l.flatMap FormState.groups := by
  induction l generalizing acc with
  | nil => simp
  | cons x rest ih =>
    rw [List.foldl_cons, ih]
    simp [appendState]

/-- Every group emitted by the renderer is built by `mkOpts` with an empty
badge. -/
theorem render_groups_shape {p : PolicyDocument} {g : RadioGroup}
    (hg : g ∈ (generateDynamicFields p).groups) :
    ∃ (label : String) (os : List String),
      g = { label := label, opts := mkOpts os, badge := none } := by
  unfold generateDynamicFields at hg
  rw [foldl_appendState_groups] at hg
  simp only [emptyState, List.nil_append] at hg
  rcases List.mem_flatMap.mp hg with ⟨fs, hfs, hgf⟩
  rcases List.mem_flatMap.mp hfs with ⟨st, _, hfs2⟩
  split at hfs2
  · simp at hfs2
  · rcases List.mem_flatMap.mp hfs2 with ⟨ev, _, hfs3⟩
    split at hfs3
    · simp at hfs3
    · rcases List.mem_map.mp hfs3 with ⟨a, _, rfl⟩
      unfold artifactFields at hgf
      split at hgf
      · simp at hgf
      · split at hgf
        · rcases hopt : a.details.options with _ | os
          · rw [hopt] at hgf
            simp [emptyState] at hgf
          · rw [hopt] at hgf
            simp only [List.mem_singleton] at hgf
            exact ⟨a.details.label, os, hgf⟩
        · simp [emptyState] at hgf

theorem mkOpts_head_checked {os : List String} {o : RadioOpt} {rest : List RadioOpt}
    (h : mkOpts os = o :: rest) : o.checked = true := by
  cases os with
  | nil => simp [mkOpts] at h
  | cons v vs =>
    simp only [mkOpts, List.cons.injEq] at h
    rw [← h.1]

/-- Whenever `radioMap` has a label after a render, some radio of that
cluster is already checked. -/
theorem render_radioHas_checked {p : PolicyDocument} {label : String}
    (h : radioHas (skel (generateDynamicFields p)) label = true) :
    clusterChecked (generateDynamicFields p).groups label = true := by
  unfold radioHas at h
  rw [List.any_eq_true] at h
  rcases h with ⟨pr, hpr, hcond⟩
  unfold skel at hpr
  simp only at hpr
  rcases List.mem_map.mp hpr with ⟨g, hgmem, rfl⟩
  simp only [Bool.and_eq_true, decide_eq_true_eq, Bool.not_eq_true'] at hcond
  rcases render_groups_shape hgmem with ⟨l0, os, heq⟩
  unfold clusterChecked
  rw [List.any_eq_true]
  refine ⟨g, hgmem, ?_⟩
  rcases hcond with ⟨hlab, hne⟩
  cases os with
  | nil =>
    exfalso
    rw [heq] at hne
    simp [mkOpts] at hne
  | cons v vs =>
    rw [heq]
    rw [heq] at hlab
    simp only at hlab
    simp [mkOpts, hlab]

theorem radioStep_skip {k : Skel} {label v : String} {gs : List RadioGroup}
    (h : clusterChecked gs label = true) : radioStep k label v gs = gs := by
  unfold radioStep
  rw [h]
  simp

theorem radioStep_noRadio {k : Skel} {label v : String} {gs : List RadioGroup}
    (h : radioHas k label = false) : radioStep k label v gs = gs := by
  unfold radioStep
  rw [h]
  rfl

/-- Claim C10, confirmed.  After a render every radio group with at least
one option has its first option checked, and consequently the
reconciliation engine never changes any rendered group: its guard "apply
only if no option in the group is currently selected" fails for every
cluster the suggestion map can reach. -/
theorem C10_firstOptionChecked (p : PolicyDocument) :
    (∀ g ∈ (generateDynamicFields p).groups, ∀ (o : RadioOpt) (os : List RadioOpt),
       g.opts = o :: os → o.checked = true) ∧
    (∀ entries : List (String × Option String),
       (populateSuggestedFields entries (generateDynamicFields p)).groups =
         (generateDynamicFields p).groups) := by
  constructor
  · intro g hg o os hopts
    rcases render_groups_shape hg with ⟨l0, os0, rfl⟩
    simp only at hopts
    exact mkOpts_head_checked hopts
  · intro entries
    rw [populate_groups]
    have hid : ∀ e, gstep (skel (generateDynamicFields p))
        (generateDynamicFields p).groups e = (generateDynamicFields p).groups := by
      rintro ⟨l, _ | v⟩
      · rfl
      · show radioStep _ l v _ = _
        by_cases hr : radioHas (skel (generateDynamicFields p)) l = true
        · exact radioStep_skip (render_radioHas_checked hr)
        · exact radioStep_noRadio (by simpa using hr)
    induction entries with
    | nil => rfl
    | cons e rest ih =>
      rw [List.foldl_cons, hid e, ih]

/-- Concrete instantiation: the rendered `Contains PII` group of the
scenario policy has its first option checked. -/
theorem C10_witness :
    ({ label := "Contains PII",
       opts := [{ value := "Yes", checked := true }, { value := "No", checked := false }],
       badge := none } : RadioGroup) ∈ (generateDynamicFields bizPiiPolicy).groups ∧
    ({ value := "Yes", checked := true } : RadioOpt).checked = true :=
  ⟨by decide,
   (C10_firstOptionChecked bizPiiPolicy).1
     { label := "Contains PII",
       opts := [{ value := "Yes", checked := true }, { value := "No", checked := false }],
       badge := none } (by decide) { value := "Yes", checked := true }
     [{ value := "No", checked := false }] rfl⟩

/-! ### Claim C8 — replaying the per-field text operations

A pass compiles, per field, to a sequence of guarded fills and unguarded
fallback writes.  On a field with a non-empty trimmed value only the
fallback writes act, and replaying those alone is idempotent; with every
suggested value non-empty after trimming, a field emptied once stays
non-empty, which makes the whole pass idempotent. -/

theorem setValueAndInput_none {f : TextField} (h : f.aiOrig = none) (v : String) :
    setValueAndInput v f = { f with value := v } := by
  rcases f with ⟨fi, fl, fr, fv, fo, fb⟩
  simp only at h
  subst h
  rfl

theorem setValueAndInput_same {f : TextField} {o : String} (h : f.aiOrig = some o) :
    setValueAndInput o f = { f with value := o } := by
  rcases f with ⟨fi, fl, fr, fv, fo, fb⟩
  simp only at h
  subst h
  simp [setValueAndInput, inputListener]

theorem setValueAndInput_diff {f : TextField} {o v : String} (h : f.aiOrig = some o)
    (hv : v ≠ o) :
    setValueAndInput v f = { f with value := v, aiOrig := none, badge := false } := by
  rcases f with ⟨fi, fl, fr, fv, fo, fb⟩
  simp only at h
  subst h
  simp [setValueAndInput, inputListener, hv]

theorem runB_none {f : TextField} (h : f.aiOrig = none) (vs : List String) :
    runB vs f = { f with value := vs.getLastD f.value } := by
  induction vs generalizing f with
  | nil => rfl
  | cons v rest ih =>
    show runB rest (setValueAndInput v f) = _
    rw [setValueAndInput_none h v, ih (f := { f with value := v }) h, List.getLastD_cons]

theorem runB_all_same {f : TextField} {o : String} (h : f.aiOrig = some o) (vs : List String)
    (hall : ∀ u ∈ vs, u = o) :
    runB vs f = { f with value := vs.getLastD f.value } := by
  induction vs generalizing f with
  | nil => rfl
  | cons v rest ih =>
    have hv : v = o := hall v (by simp)
    subst hv
    show runB rest (setValueAndInput v f) = _
    rw [setValueAndInput_same h,
      ih (f := { f with value := v }) h (fun u hu => hall u (by simp [hu])),
      List.getLastD_cons]

theorem getLastD_append_cons (a : List String) (u : String) (post : List String)
    (d : String) : (a ++ u :: post).getLastD d = post.getLastD u := by
  induction a generalizing d with
  | nil => rw [List.nil_append, List.getLastD_cons]
  | cons x xs ih =>
    rw [List.cons_append, List.getLastD_cons]
    exact ih x

theorem runB_split {f : TextField} {o u : String} {pre post : List String}
    (h : f.aiOrig = some o) (hpre : ∀ x ∈ pre, x = o) (hu : u ≠ o) :
    runB (pre ++ u :: post) f =
      { f with value := post.getLastD u, aiOrig := none, badge := false } := by
  rw [show runB (pre ++ u :: post) f = runB (u :: post) (runB pre f) from by simp [runB]]
  rw [runB_all_same h pre hpre]
  show runB post (setValueAndInput u _) = _
  rw [setValueAndInput_diff (f := { f with value := pre.getLastD f.value }) h hu]
  rw [runB_none (f := { f with value := u, aiOrig := none, badge := false }) rfl post]

theorem getLastD_getLastD (vs : List String) (d : String) :
    vs.getLastD (vs.getLastD d) = vs.getLastD d := by
  cases vs with
  | nil => rfl
  | cons v rest => rw [List.getLastD_cons, List.getLastD_cons]

/-- Replaying the unguarded fallback writes is idempotent on every field
state. -/
theorem runB_idem (vs : List String) (f : TextField) : runB vs (runB vs f) = runB vs f := by
  rcases h : f.aiOrig with _ | o
  · rw [runB_none h vs, runB_none (f := { f with value := vs.getLastD f.value }) h vs,
      getLastD_getLastD]
  · have hsplit : vs.takeWhile (fun x => decide (x = o)) ++
        vs.dropWhile (fun x => decide (x = o)) = vs :=
      List.takeWhile_append_dropWhile (p := fun x => decide (x = o)) (l := vs)
    have hpre : ∀ x ∈ vs.takeWhile (fun x => decide (x = o)), x = o := by
      intro x hx
      simpa using List.mem_takeWhile_imp hx
    rcases hr : vs.dropWhile (fun x => decide (x = o)) with _ | ⟨u, post⟩
    · have hall : ∀ u ∈ vs, u = o := by
        intro u hu
        rw [← hsplit, hr, List.append_nil] at hu
        exact hpre u hu
      rw [runB_all_same h vs hall,
        runB_all_same (f := { f with value := vs.getLastD f.value }) h vs hall,
        getLastD_getLastD]
    · have h0 := List.head?_dropWhile_not (fun x => decide (x = o)) vs
      rw [hr] at h0
      simp only [List.head?_cons, decide_eq_false_iff_not] at h0
      have hvs : vs = vs.takeWhile (fun x => decide (x = o)) ++ u :: post := by
        conv_lhs => rw [← hsplit]
        rw [hr]
      rw [hvs, runB_split h hpre h0]
      rw [runB_none (f := { f with value := post.getLastD u, aiOrig := none, badge := false })
        rfl]
      rw [getLastD_append_cons]

theorem fillIfEmpty_nonempty {f : TextField} (h : jsTrim f.value ≠ "") (v : String) :
    fillIfEmpty v f = f := by
  unfold fillIfEmpty
  rw [if_neg h]

theorem fillIfEmpty_empty {f : TextField} (h : jsTrim f.value = "") (v : String) :
    fillIfEmpty v f = { f with value := v, aiOrig := some v, badge := true } := by
  unfold fillIfEmpty
  rw [if_pos h]
  have hinner : inputListener { f with value := v, aiOrig := some v } =
      { f with value := v, aiOrig := some v } := by
    simp [inputListener]
  rw [hinner]

/-- On a non-empty field a pass reduces to its fallback writes, and the
result stays non-empty when every suggested value trims non-empty. -/
theorem runOps_nonempty_eq_runB (ops : List TextOp) (f : TextField)
    (hconsts : ∀ op ∈ ops, jsTrim op.constVal ≠ "") (hf : jsTrim f.value ≠ "") :
    runOps ops f = runB (finputConsts ops) f ∧ jsTrim (runOps ops f).value ≠ "" := by
  induction ops generalizing f with
  | nil => exact ⟨rfl, hf⟩
  | cons op rest ih =>
    rcases op with v | v
    · show runOps rest (applyTextOp (TextOp.fill v) f) = _ ∧
        jsTrim (runOps rest (applyTextOp (TextOp.fill v) f)).value ≠ ""
      rw [show applyTextOp (TextOp.fill v) f = f from fillIfEmpty_nonempty hf v]
      exact ih f (fun op h => hconsts op (by simp [h])) hf
    · show runOps rest (applyTextOp (TextOp.finput v) f) = _ ∧
        jsTrim (runOps rest (applyTextOp (TextOp.finput v) f)).value ≠ ""
      have hval : jsTrim (setValueAndInput v f).value ≠ "" := by
        rw [value_setValueAndInput]
        simpa [TextOp.constVal] using hconsts (TextOp.finput v) (by simp)
      exact ih (setValueAndInput v f) (fun op h => hconsts op (by simp [h])) hval

/-- Idempotence of a per-field pass when every suggested value is non-empty
after trimming. -/
theorem runOps_idem (ops : List TextOp) (f : TextField)
    (hconsts : ∀ op ∈ ops, jsTrim op.constVal ≠ "") :
    runOps ops (runOps ops f) = runOps ops f := by
  by_cases hf : jsTrim f.value = ""
  · cases ops with
    | nil => rfl
    | cons op rest =>
      have hrestc : ∀ op ∈ rest, jsTrim op.constVal ≠ "" := fun op h =>
        hconsts op (by simp [h])
      rcases op with v | v
      · have hv : jsTrim v ≠ "" := by
          simpa [TextOp.constVal] using hconsts (TextOp.fill v) (by simp)
        have h1 : fillIfEmpty v f =
            { f with value := v, aiOrig := some v, badge := true } := fillIfEmpty_empty hf v
        have hrb := runOps_nonempty_eq_runB rest
          { f with value := v, aiOrig := some v, badge := true } hrestc hv
        show runOps rest (fillIfEmpty v (runOps rest (fillIfEmpty v f))) =
          runOps rest (fillIfEmpty v f)
        rw [h1, hrb.1]
        have htne : jsTrim (runB (finputConsts rest)
            { f with value := v, aiOrig := some v, badge := true }).value ≠ "" := by
          rw [← hrb.1]
          exact hrb.2
        rw [fillIfEmpty_nonempty htne v]
        rw [(runOps_nonempty_eq_runB rest _ hrestc htne).1]
        exact runB_idem _ _
      · have hval : jsTrim (setValueAndInput v f).value ≠ "" := by
          rw [value_setValueAndInput]
          simpa [TextOp.constVal] using hconsts (TextOp.finput v) (by simp)
        have hrb := runOps_nonempty_eq_runB rest (setValueAndInput v f) hrestc hval
        show runOps rest (setValueAndInput v (runOps rest (setValueAndInput v f))) =
          runOps rest (setValueAndInput v f)
        rw [hrb.1]
        have htne : jsTrim (runB (finputConsts rest) (setValueAndInput v f)).value ≠ "" := by
          rw [← hrb.1]
          exact hrb.2
        have hval2 : jsTrim (setValueAndInput v
            (runB (finputConsts rest) (setValueAndInput v f))).value ≠ "" := by
          rw [value_setValueAndInput]
          simpa [TextOp.constVal] using hconsts (TextOp.finput v) (by simp)
        rw [(runOps_nonempty_eq_runB rest
          (setValueAndInput v (runB (finputConsts rest) (setValueAndInput v f)))
          hrestc hval2).1]
        show runB (v :: finputConsts rest) (runB (v :: finputConsts rest) f) =
          runB (v :: finputConsts rest) f
        exact runB_idem _ _
  · have h1 := runOps_nonempty_eq_runB ops f hconsts hf
    rw [h1.1]
    have h2 := runOps_nonempty_eq_runB ops (runB (finputConsts ops) f) hconsts
      (h1.1 ▸ h1.2)
    rw [h2.1, runB_idem]

/-! ### Claim C8 — group shapes and checked state -/

theorem checkOpts_values (oi : Nat) (opts : List RadioOpt) :
    (checkOpts oi opts).map RadioOpt.value = opts.map RadioOpt.value := by
  induction opts generalizing oi with
  | nil => cases oi <;> rfl
  | cons o rest ih =>
    cases oi with
    | zero => simp [checkOpts, List.map_map, Function.comp]
    | succ n => simp [checkOpts, ih]

theorem checkOpts_any_checked {oi : Nat} {opts : List RadioOpt} (h : oi < opts.length) :
    (checkOpts oi opts).any RadioOpt.checked = true := by
  induction opts generalizing oi with
  | nil => simp at h
  | cons o rest ih =>
    cases oi with
    | zero => simp [checkOpts]
    | succ n =>
      have hn : n < rest.length := by simpa using h
      simp [checkOpts, ih hn]

theorem modifyGroup_getElem? (gs : List RadioGroup) (gi : Nat) (h : RadioGroup → RadioGroup)
    (j : Nat) :
    (modifyGroup gs gi h)[j]? = if gi = j then gs[j]?.map h else gs[j]? := by
  unfold modifyGroup
  rcases hg : gs[gi]? with _ | g
  · by_cases e : gi = j
    · subst e
      simp [hg]
    · simp [e]
  · by_cases e : gi = j
    · subst e
      simp [List.getElem?_set_self', hg]
    · simp [List.getElem?_set_ne e, e]

theorem modifyGroup_map {α : Type} {f : RadioGroup → α} {h : RadioGroup → RadioGroup}
    (hpres : ∀ g, f (h g) = f g) (gs : List RadioGroup) (gi : Nat) :
    (modifyGroup gs gi h).map f = gs.map f := by
  apply List.ext_getElem?
  intro j
  rw [List.getElem?_map, List.getElem?_map, modifyGroup_getElem?]
  by_cases e : gi = j
  · rw [if_pos e]
    cases gs[j]? <;> simp [hpres]
  · rw [if_neg e]

theorem map_map_congr {α : Type} (F : RadioGroup → RadioGroup) (f : RadioGroup → α)
    (hpres : ∀ g, f (F g) = f g) (gs : List RadioGroup) :
    (gs.map F).map f = gs.map f := by
  induction gs with
  | nil => rfl
  | cons g rest ih => simp [hpres, ih]

theorem radioChangeListener_shapes (label : String) (gs : List RadioGroup) :
    (radioChangeListener label gs).map groupShape = gs.map groupShape ∧
    (radioChangeListener label gs).map ccShape = gs.map ccShape := by
  unfold radioChangeListener
  constructor <;>
    refine map_map_congr _ _ (fun g => ?_) gs <;>
    (rcases g with ⟨gl, go, gb⟩; simp only [groupShape, ccShape]; repeat' split) <;> rfl

theorem setBadgeIfNone_shapes (gs : List RadioGroup) (gi : Nat) (v : String) :
    (setBadgeIfNone gs gi v).map groupShape = gs.map groupShape ∧
    (setBadgeIfNone gs gi v).map ccShape = gs.map ccShape := by
  unfold setBadgeIfNone
  constructor <;>
    refine modifyGroup_map (fun g => ?_) gs gi <;>
    (rcases g with ⟨gl, go, gb⟩; simp only [groupShape, ccShape]; repeat' split) <;> rfl

theorem checkOption_groupShape (gs : List RadioGroup) (gi oi : Nat) :
    (checkOption gs gi oi).map groupShape = gs.map groupShape := by
  unfold checkOption
  refine modifyGroup_map (fun g => ?_) gs gi
  simp [groupShape, checkOpts_values]

theorem applyRadioMatch_shape (label v : String) (gs : List RadioGroup) (pos : Nat × Nat) :
    (applyRadioMatch label v gs pos).map groupShape = gs.map groupShape := by
  unfold applyRadioMatch
  split
  · split
    · rw [(setBadgeIfNone_shapes _ _ _).1, (radioChangeListener_shapes _ _).1,
        checkOption_groupShape]
    · rfl
  · rfl

theorem any_map_eq {α β : Type} (f : α → β) (p : β → Bool) (l : List α) :
    (l.map f).any p = l.any (fun a => p (f a)) := by
  induction l with
  | nil => rfl
  | cons x xs ih => simp [ih]

theorem clusterChecked_eq_ccShape (gs : List RadioGroup) (label : String) :
    clusterChecked gs label =
      (gs.map ccShape).any (fun pr => pr.1 = label && pr.2.any (fun b => b)) := by
  unfold clusterChecked
  rw [any_map_eq]
  simp [ccShape, any_map_eq]

theorem clusterChecked_congr {gs₁ gs₂ : List RadioGroup}
    (h : gs₁.map ccShape = gs₂.map ccShape) (label : String) :
    clusterChecked gs₁ label = clusterChecked gs₂ label := by
  rw [clusterChecked_eq_ccShape, clusterChecked_eq_ccShape, h]

theorem matchesCluster_eq_groupShape (gs : List RadioGroup) (label v : String) :
    matchesCluster gs label v =
      (gs.map groupShape).any
        (fun pr => pr.1 = label && pr.2.any (fun s => jsLower s = jsLower v)) := by
  unfold matchesCluster
  rw [any_map_eq]
  simp [groupShape, any_map_eq]

theorem matchesCluster_congr {gs₁ gs₂ : List RadioGroup}
    (h : gs₁.map groupShape = gs₂.map groupShape) (label v : String) :
    matchesCluster gs₁ label v = matchesCluster gs₂ label v := by
  rw [matchesCluster_eq_groupShape, matchesCluster_eq_groupShape, h]

theorem optValueAt_congr {gs₁ gs₂ : List RadioGroup}
    (h : gs₁.map groupShape = gs₂.map groupShape) (gi oi : Nat) :
    optValueAt gs₁ gi oi = optValueAt gs₂ gi oi := by
  have h1 : Option.map groupShape gs₁[gi]? = Option.map groupShape gs₂[gi]? := by
    rw [← List.getElem?_map, ← List.getElem?_map, h]
  unfold optValueAt
  rcases e1 : gs₁[gi]? with _ | g₁
  · rcases e2 : gs₂[gi]? with _ | g₂
    · rfl
    · rw [e1, e2] at h1
      simp at h1
  · rcases e2 : gs₂[gi]? with _ | g₂
    · rw [e1, e2] at h1
      simp at h1
    · rw [e1, e2] at h1
      replace h1 : groupShape g₁ = groupShape g₂ := by simpa using h1
      have hv : g₁.opts.map RadioOpt.value = g₂.opts.map RadioOpt.value := by
        have h2 := congrArg Prod.snd h1
        simpa [groupShape] using h2
      have h3 : Option.map RadioOpt.value g₁.opts[oi]? =
          Option.map RadioOpt.value g₂.opts[oi]? := by
        rw [← List.getElem?_map, ← List.getElem?_map, hv]
      show (match g₁.opts[oi]? with
        | some o => some o.value
        | none => none) =
        (match g₂.opts[oi]? with
        | some o => some o.value
        | none => none)
      rcases e3 : g₁.opts[oi]? with _ | o₁
      · rcases e4 : g₂.opts[oi]? with _ | o₂
        · rfl
        · rw [e3, e4] at h3
          simp at h3
      · rcases e4 : g₂.opts[oi]? with _ | o₂
        · rw [e3, e4] at h3
          simp at h3
        · rw [e3, e4] at h3
          replace h3 : o₁.value = o₂.value := by simpa using h3
          show some o₁.value = some o₂.value
          rw [h3]

/-! ### Claim C8 — checked-state analysis of the radio branch -/

theorem any_iff_exists_getElem? {α : Type} (l : List α) (p : α → Bool) :
    l.any p = true ↔ ∃ (i : Nat) (x : α), l[i]? = some x ∧ p x = true := by
  rw [List.any_eq_true]
  constructor
  · rintro ⟨x, hx, hp⟩
    rcases List.mem_iff_getElem?.mp hx with ⟨i, hi⟩
    exact ⟨i, x, hi, hp⟩
  · rintro ⟨i, x, hi, hp⟩
    exact ⟨x, List.mem_iff_getElem?.mpr ⟨i, hi⟩, hp⟩

theorem clusterChecked_iff {gs : List RadioGroup} {label : String} :
    clusterChecked gs label = true ↔
      ∃ (j : Nat) (g : RadioGroup), gs[j]? = some g ∧ g.label = label ∧
        g.opts.any RadioOpt.checked = true := by
  unfold clusterChecked
  rw [any_iff_exists_getElem?]
  constructor
  · rintro ⟨j, g, hj, hp⟩
    rw [Bool.and_eq_true] at hp
    exact ⟨j, g, hj, of_decide_eq_true hp.1, hp.2⟩
  · rintro ⟨j, g, hj, hl, hc⟩
    refine ⟨j, g, hj, ?_⟩
    rw [Bool.and_eq_true]
    exact ⟨decide_eq_true hl, hc⟩

theorem matchesCluster_iff {gs : List RadioGroup} {label v : String} :
    matchesCluster gs label v = true ↔
      ∃ (j : Nat) (g : RadioGroup) (i : Nat) (o : RadioOpt),
        gs[j]? = some g ∧ g.label = label ∧ g.opts[i]? = some o ∧
        jsLower o.value = jsLower v := by
  unfold matchesCluster
  rw [any_iff_exists_getElem?]
  constructor
  · rintro ⟨j, g, hj, hp⟩
    rw [Bool.and_eq_true] at hp
    rcases (any_iff_exists_getElem? _ _).mp hp.2 with ⟨i, o, hi, ho⟩
    exact ⟨j, g, i, o, hj, of_decide_eq_true hp.1, hi, of_decide_eq_true ho⟩
  · rintro ⟨j, g, i, o, hj, hl, hi, hm⟩
    refine ⟨j, g, hj, ?_⟩
    rw [Bool.and_eq_true]
    exact ⟨decide_eq_true hl, (any_iff_exists_getElem? _ _).mpr ⟨i, o, hi, decide_eq_true hm⟩⟩

theorem optValueAt_eq {gs : List RadioGroup} {gi oi : Nat} {g : RadioGroup} {o : RadioOpt}
    (hg : gs[gi]? = some g) (ho : g.opts[oi]? = some o) :
    optValueAt gs gi oi = some o.value := by
  unfold optValueAt
  rw [hg]
  show (match g.opts[oi]? with
    | some o => some o.value
    | none => none) = some o.value
  rw [ho]

theorem mem_clusterPositions {gs : List RadioGroup} {label : String} {pos : Nat × Nat} :
    pos ∈ clusterPositions gs label ↔
      ∃ g, gs[pos.1]? = some g ∧ g.label = label ∧ pos.2 < g.opts.length := by
  unfold clusterPositions
  rw [List.mem_flatMap]
  constructor
  · rintro ⟨gi, hgi, hmem⟩
    split at hmem
    next g hg =>
      split at hmem
      next hlab =>
        rcases List.mem_map.mp hmem with ⟨oi, hoi, hpe⟩
        subst hpe
        exact ⟨g, hg, hlab, List.mem_range.mp hoi⟩
      next hlab => simp at hmem
    next => simp at hmem
  · rintro ⟨g, hg, hlab, hlt⟩
    refine ⟨pos.1, ?_, ?_⟩
    · rw [List.mem_range]
      exact (List.getElem?_eq_some_iff.mp hg).1
    · rw [hg]
      show pos ∈ (if g.label = label then
          (List.range g.opts.length).map (fun oi => (pos.1, oi)) else [])
      rw [if_pos hlab, List.mem_map]
      exact ⟨pos.2, List.mem_range.mpr hlt, rfl⟩

theorem checkOption_checked_mono {gs : List RadioGroup} {ℓ : String} {gi oi : Nat}
    {g0 : RadioGroup} {o0 : RadioOpt} (hg0 : gs[gi]? = some g0)
    (ho0 : g0.opts[oi]? = some o0) (h : clusterChecked gs ℓ = true) :
    clusterChecked (checkOption gs gi oi) ℓ = true := by
  rcases clusterChecked_iff.mp h with ⟨j, g, hj, hl, hc⟩
  unfold checkOption
  by_cases e : gi = j
  · subst e
    apply clusterChecked_iff.mpr
    refine ⟨gi, { g with opts := checkOpts oi g.opts }, ?_, hl, ?_⟩
    · rw [modifyGroup_getElem?, if_pos rfl, hj]
      rfl
    · have hgg : g0 = g := by
        rw [hg0] at hj
        exact (Option.some.injEq _ _ ▸ hj).symm ▸ rfl
      subst hgg
      exact checkOpts_any_checked (List.getElem?_eq_some_iff.mp ho0).1
  · apply clusterChecked_iff.mpr
    refine ⟨j, g, ?_, hl, hc⟩
    rw [modifyGroup_getElem?, if_neg e]
    exact hj

theorem applyRadioMatch_fires {label v : String} {gs : List RadioGroup} {pos : Nat × Nat}
    {g : RadioGroup} {o : RadioOpt} (hg : gs[pos.1]? = some g)
    (ho : g.opts[pos.2]? = some o) (hmatch : jsLower o.value = jsLower v)
    (hlab : g.label = label) :
    clusterChecked (applyRadioMatch label v gs pos) label = true := by
  unfold applyRadioMatch
  rw [optValueAt_eq hg ho]
  show clusterChecked (if jsLower o.value = jsLower v then
      setBadgeIfNone (radioChangeListener label (checkOption gs pos.1 pos.2)) pos.1 v
    else gs) label = true
  rw [if_pos hmatch]
  rw [clusterChecked_congr (setBadgeIfNone_shapes _ _ _).2 label,
    clusterChecked_congr (radioChangeListener_shapes _ _).2 label]
  apply clusterChecked_iff.mpr
  refine ⟨pos.1, { g with opts := checkOpts pos.2 g.opts }, ?_, hlab, ?_⟩
  · unfold checkOption
    rw [modifyGroup_getElem?, if_pos rfl, hg]
    rfl
  · exact checkOpts_any_checked (List.getElem?_eq_some_iff.mp ho).1

theorem applyRadioMatch_checked_mono {label v ℓ : String} {gs : List RadioGroup}
    {pos : Nat × Nat} (h : clusterChecked gs ℓ = true) :
    clusterChecked (applyRadioMatch label v gs pos) ℓ = true := by
  unfold applyRadioMatch
  split
  next ov hov =>
    split
    next hm =>
      rcases (by
        unfold optValueAt at hov
        rcases e1 : gs[pos.1]? with _ | g
        · rw [e1] at hov
          exact absurd hov (by simp)
        · rw [e1] at hov
          replace hov : (match g.opts[pos.2]? with
            | some o => some o.value
            | none => none) = some ov := hov
          rcases e2 : g.opts[pos.2]? with _ | o
          · rw [e2] at hov
            exact absurd hov (by simp)
          · exact ⟨g, o, rfl, e2⟩ :
        ∃ g o, gs[pos.1]? = some g ∧ g.opts[pos.2]? = some o) with ⟨g, o, hg, ho⟩
      rw [clusterChecked_congr (setBadgeIfNone_shapes _ _ _).2 ℓ,
        clusterChecked_congr (radioChangeListener_shapes _ _).2 ℓ]
      exact checkOption_checked_mono hg ho h
    next hm => exact h
  next => exact h

theorem applyRadioMatch_noMatch {gs : List RadioGroup} {label v : String} {pos : Nat × Nat}
    (hm : matchesCluster gs label v = false) (hpos : pos ∈ clusterPositions gs label) :
    applyRadioMatch label v gs pos = gs := by
  rcases mem_clusterPositions.mp hpos with ⟨g, hg, hlab, hlt⟩
  have he : ∃ o, g.opts[pos.2]? = some o := ⟨_, List.getElem?_eq_getElem hlt⟩
  rcases he with ⟨o, ho⟩
  unfold applyRadioMatch
  rw [optValueAt_eq hg ho]
  show (if jsLower o.value = jsLower v then
      setBadgeIfNone (radioChangeListener label (checkOption gs pos.1 pos.2)) pos.1 v
    else gs) = gs
  have hne : jsLower o.value ≠ jsLower v := by
    intro hc
    have : matchesCluster gs label v = true :=
      matchesCluster_iff.mpr ⟨pos.1, g, pos.2, o, hg, hlab, ho, hc⟩
    rw [hm] at this
    exact absurd this (by simp)
  rw [if_neg hne]

theorem foldl_applyRadioMatch_id {gs : List RadioGroup} {label v : String}
    (pl : List (Nat × Nat)) (hall : ∀ p ∈ pl, applyRadioMatch label v gs p = gs) :
    pl.foldl (applyRadioMatch label v) gs = gs := by
  induction pl with
  | nil => rfl
  | cons q rest ih =>
    rw [List.foldl_cons, hall q (by simp)]
    exact ih (fun p hp => hall p (by simp [hp]))

theorem foldl_applyRadioMatch_mono {label v ℓ : String} (pl : List (Nat × Nat))
    (gs : List RadioGroup) (h : clusterChecked gs ℓ = true) :
    clusterChecked (pl.foldl (applyRadioMatch label v) gs) ℓ = true := by
  induction pl generalizing gs with
  | nil => exact h
  | cons q rest ih =>
    rw [List.foldl_cons]
    exact ih _ (applyRadioMatch_checked_mono h)

theorem foldl_applyRadioMatch_shape (label v : String) (pl : List (Nat × Nat))
    (gs : List RadioGroup) :
    (pl.foldl (applyRadioMatch label v) gs).map groupShape = gs.map groupShape := by
  induction pl generalizing gs with
  | nil => rfl
  | cons q rest ih => rw [List.foldl_cons, ih, applyRadioMatch_shape]

theorem radioStep_shape (k : Skel) (label v : String) (gs : List RadioGroup) :
    (radioStep k label v gs).map groupShape = gs.map groupShape := by
  unfold radioStep
  split
  · split
    · exact foldl_applyRadioMatch_shape _ _ _ _
    · rfl
  · rfl

theorem radioStep_checked_mono {k : Skel} {label v ℓ : String} {gs : List RadioGroup}
    (h : clusterChecked gs ℓ = true) :
    clusterChecked (radioStep k label v gs) ℓ = true := by
  unfold radioStep
  split
  · split
    · exact foldl_applyRadioMatch_mono _ _ h
    · exact h
  · exact h

theorem radioStep_noMatch {k : Skel} {gs : List RadioGroup} {label v : String}
    (hm : matchesCluster gs label v = false) :
    radioStep k label v gs = gs := by
  unfold radioStep
  split
  · split
    · exact foldl_applyRadioMatch_id _ (fun p hp => applyRadioMatch_noMatch hm hp)
    · rfl
  · rfl

theorem foldl_applyRadioMatch_checked {label v : String} (pl : List (Nat × Nat)) :
    ∀ (gs : List RadioGroup),
      (∃ pos ∈ pl, ∃ g o, gs[pos.1]? = some g ∧ g.label = label ∧
        g.opts[pos.2]? = some o ∧ jsLower o.value = jsLower v) →
      clusterChecked (pl.foldl (applyRadioMatch label v) gs) label = true := by
  induction pl with
  | nil =>
    rintro gs ⟨pos, hmem, _⟩
    simp at hmem
  | cons q rest ih =>
    rintro gs ⟨pos, hmem, g, o, hg, hl, ho, hmv⟩
    rw [List.foldl_cons]
    rcases List.mem_cons.mp hmem with heq | hmem'
    · subst heq
      exact foldl_applyRadioMatch_mono rest _ (applyRadioMatch_fires hg ho hmv hl)
    · apply ih
      have hshape := applyRadioMatch_shape label v gs q
      have h1 : Option.map groupShape (applyRadioMatch label v gs q)[pos.1]? =
          Option.map groupShape gs[pos.1]? := by
        rw [← List.getElem?_map, ← List.getElem?_map, hshape]
      rw [hg] at h1
      rcases e : (applyRadioMatch label v gs q)[pos.1]? with _ | g'
      · rw [e] at h1
        exact absurd h1 (by simp)
      · rw [e] at h1
        replace h1 : groupShape g' = groupShape g := by simpa using h1
        have hl' : g'.label = label := by
          have h2 : g'.label = g.label := by
            have h4 := congrArg Prod.fst h1
            simpa [groupShape] using h4
          rw [h2, hl]
        have hv' : g'.opts.map RadioOpt.value = g.opts.map RadioOpt.value := by
          have h2 := congrArg Prod.snd h1
          simpa [groupShape] using h2
        have h3 : Option.map RadioOpt.value g'.opts[pos.2]? = some o.value := by
          rw [← List.getElem?_map, hv', List.getElem?_map, ho]
          rfl
        rcases e2 : g'.opts[pos.2]? with _ | o'
        · rw [e2] at h3
          exact absurd h3 (by simp)
        · rw [e2] at h3
          replace h3 : o'.value = o.value := by simpa using h3
          refine ⟨pos, hmem', g', o', e, hl', e2, ?_⟩
          rw [h3]
          exact hmv

theorem radioStep_match_checked {k : Skel} {gs : List RadioGroup} {label v : String}
    (hr : radioHas k label = true) (hnc : clusterChecked gs label = false)
    (hm : matchesCluster gs label v = true) :
    clusterChecked (radioStep k label v gs) label = true := by
  unfold radioStep
  split
  next hradio =>
    split
    next hncb =>
      rcases matchesCluster_iff.mp hm with ⟨j, g, i, o, hj, hl, hi, hmv⟩
      apply foldl_applyRadioMatch_checked
      refine ⟨(j, i), ?_, g, o, hj, hl, hi, hmv⟩
      exact mem_clusterPositions.mpr ⟨g, hj, hl, (List.getElem?_eq_some_iff.mp hi).1⟩
    next hncb =>
      simp only [Bool.not_eq_eq_eq_not, Bool.not_true] at hncb
      simp only [hnc] at hncb
      exact absurd hncb (by simp)
  next hradio => exact absurd hr hradio

/-! ### Claim C8 — one pass leaves the radio branch inert -/

theorem gstep_shape (k : Skel) (gs : List RadioGroup) (e : String × Option String) :
    (gstep k gs e).map groupShape = gs.map groupShape := by
  unfold gstep
  split
  · rfl
  · exact radioStep_shape _ _ _ _

theorem gstep_checked_mono {k : Skel} {gs : List RadioGroup} {e : String × Option String}
    {ℓ : String} (h : clusterChecked gs ℓ = true) :
    clusterChecked (gstep k gs e) ℓ = true := by
  unfold gstep
  split
  · exact h
  · exact radioStep_checked_mono h

theorem foldl_gstep_shape (k : Skel) (entries : List (String × Option String))
    (gs : List RadioGroup) :
    (entries.foldl (gstep k) gs).map groupShape = gs.map groupShape := by
  induction entries generalizing gs with
  | nil => rfl
  | cons e rest ih => rw [List.foldl_cons, ih, gstep_shape]

theorem foldl_gstep_checked_mono {k : Skel} {ℓ : String}
    (entries : List (String × Option String)) (gs : List RadioGroup)
    (h : clusterChecked gs ℓ = true) :
    clusterChecked (entries.foldl (gstep k) gs) ℓ = true := by
  induction entries generalizing gs with
  | nil => exact h
  | cons e rest ih =>
    rw [List.foldl_cons]
    exact ih _ (gstep_checked_mono h)

/-- After one pass over the entries, re-running any single entry's radio
branch changes nothing: a cluster the pass checked is skipped by the
already-selected guard, and a cluster it could not match still cannot be
matched, since the pass never changes labels or option values. -/
theorem groups_pass_fix (k : Skel) (entries : List (String × Option String)) :
    ∀ (gs : List RadioGroup) (e : String × Option String), e ∈ entries →
      gstep k (entries.foldl (gstep k) gs) e = entries.foldl (gstep k) gs := by
  induction entries with
  | nil =>
    intro gs e he
    simp at he
  | cons e₀ rest ih =>
    intro gs e he
    rw [List.foldl_cons]
    rcases List.mem_cons.mp he with heq | hmem
    · subst heq
      rcases e with ⟨l, _ | v⟩
      · rfl
      · show radioStep k l v (rest.foldl (gstep k) (gstep k gs (l, some v))) =
          rest.foldl (gstep k) (gstep k gs (l, some v))
        by_cases hr : radioHas k l = true
        · cases hcT : clusterChecked (rest.foldl (gstep k) (gstep k gs (l, some v))) l with
          | true => exact radioStep_skip hcT
          | false =>
            have hc1 : clusterChecked (gstep k gs (l, some v)) l = false := by
              cases hc : clusterChecked (gstep k gs (l, some v)) l with
              | false => rfl
              | true =>
                have h5 : clusterChecked (rest.foldl (gstep k)
                    (gstep k gs (l, some v))) l = true :=
                  foldl_gstep_checked_mono rest (gstep k gs (l, some v)) hc
                rw [hcT] at h5
                exact absurd h5 (by simp)
            have hcgs : clusterChecked gs l = false := by
              cases hc : clusterChecked gs l with
              | false => rfl
              | true =>
                have h5 : clusterChecked (gstep k gs (l, some v)) l = true :=
                  gstep_checked_mono hc
                rw [hc1] at h5
                exact absurd h5 (by simp)
            have hm : matchesCluster gs l v = false := by
              cases hmc : matchesCluster gs l v with
              | false => rfl
              | true =>
                have h5 : clusterChecked (gstep k gs (l, some v)) l = true := by
                  show clusterChecked (radioStep k l v gs) l = true
                  exact radioStep_match_checked hr hcgs hmc
                rw [hc1] at h5
                exact absurd h5 (by simp)
            have hshape : (rest.foldl (gstep k) (gstep k gs (l, some v))).map groupShape =
                gs.map groupShape := by
              rw [foldl_gstep_shape, gstep_shape]
            have hmT : matchesCluster (rest.foldl (gstep k) (gstep k gs (l, some v))) l v
                = false := by
              rw [matchesCluster_congr hshape]
              exact hm
            exact radioStep_noMatch hmT
        · have hr2 : radioHas k l = false := by
            cases hc : radioHas k l with
            | false => rfl
            | true => exact absurd hc hr
          exact radioStep_noRadio hr2
    · exact ih (gstep k gs e₀) e hmem

theorem foldl_fixed {α β : Type} (step : α → β → α) (l : List β) (x : α)
    (hall : ∀ e ∈ l, step x e = x) : l.foldl step x = x := by
  induction l with
  | nil => rfl
  | cons e rest ih =>
    rw [List.foldl_cons, hall e (by simp)]
    exact ih (fun p hp => hall p (by simp [hp]))

/-- The radio branch of a second identical pass is the identity. -/
theorem foldl_gstep_idem (k : Skel) (entries : List (String × Option String))
    (gs : List RadioGroup) :
    entries.foldl (gstep k) (entries.foldl (gstep k) gs) = entries.foldl (gstep k) gs :=
  foldl_fixed _ entries _ (fun e he => groups_pass_fix k entries gs e he)

/-! ### Claim C8 — the pass never changes the static skeleton -/

theorem applyTextOp_skel (op : TextOp) (f : TextField) :
    (applyTextOp op f).label = f.label ∧ (applyTextOp op f).id = f.id := by
  rcases op with v | v
  · show (fillIfEmpty v f).label = f.label ∧ (fillIfEmpty v f).id = f.id
    by_cases h : jsTrim f.value = ""
    · rw [fillIfEmpty_empty h]
      exact ⟨rfl, rfl⟩
    · rw [fillIfEmpty_nonempty h]
      exact ⟨rfl, rfl⟩
  · show (setValueAndInput v f).label = f.label ∧ (setValueAndInput v f).id = f.id
    rcases ha : f.aiOrig with _ | o
    · rw [setValueAndInput_none ha]
      exact ⟨rfl, rfl⟩
    · by_cases hv : v = o
      · subst hv
        rw [setValueAndInput_same ha]
        exact ⟨rfl, rfl⟩
      · rw [setValueAndInput_diff ha hv]
        exact ⟨rfl, rfl⟩

theorem runOps_skel (ops : List TextOp) (f : TextField) :
    (runOps ops f).label = f.label ∧ (runOps ops f).id = f.id := by
  induction ops generalizing f with
  | nil => exact ⟨rfl, rfl⟩
  | cons op rest ih =>
    have h1 := applyTextOp_skel op f
    have h2 := ih (applyTextOp op f)
    exact ⟨h2.1.trans h1.1, h2.2.trans h1.2⟩

theorem applyWrites_skel (ws : List (Nat × TextOp)) (ts : List TextField) :
    (applyWrites ws ts).map (fun f => (f.label, f.id)) =
      ts.map (fun f => (f.label, f.id)) := by
  apply List.ext_getElem?
  intro i
  rw [List.getElem?_map, List.getElem?_map, applyWrites_getElem?]
  cases hf : ts[i]? with
  | none => rfl
  | some f =>
    show some ((runOps (opsAt i ws) f).label, (runOps (opsAt i ws) f).id) =
      some (f.label, f.id)
    have h := runOps_skel (opsAt i ws) f
    rw [h.1, h.2]

/-- A pass of the engine leaves labels, element ids and option values
untouched, so the second pass builds the very same lookup maps. -/
theorem skel_populate (entries : List (String × Option String)) (s : FormState) :
    skel (populateSuggestedFields entries s) = skel s := by
  have ht : (populateSuggestedFields entries s).texts.map (fun f => (f.label, f.id)) =
      s.texts.map (fun f => (f.label, f.id)) := by
    rw [populate_texts]
    exact applyWrites_skel _ _
  have hg : (populateSuggestedFields entries s).groups.map
        (fun g => (g.label, g.opts.map RadioOpt.value)) =
      s.groups.map (fun g => (g.label, g.opts.map RadioOpt.value)) := by
    rw [populate_groups]
    exact foldl_gstep_shape _ _ _
  show Skel.mk _ _ = Skel.mk _ _
  rw [ht, hg]

/-- Claim C8, counterexample.  The claim says a second identical pass never
changes the field state.  With the suggestion map assigning the empty string
to `Alpha` (matched exactly) and to `Field Beta` (whose id-slug is the
field's element id `field-beta`), a field holding `a` is first cleared by
the unguarded id-slug fallback write; the second pass then finds the field
empty, so the guarded exact-label fill now fires and installs the
`AiSuggested("")` provenance and badge that the first pass did not. -/
theorem C8_counterexample :
    populateSuggestedFields emptyValueSuggestions
        (populateSuggestedFields emptyValueSuggestions emptyValueState) ≠
      populateSuggestedFields emptyValueSuggestions emptyValueState := by
  decide

/-- Claim C8, amended: for every suggestion map all of whose non-null values
are non-empty after trimming, and every starting field state, applying the
map twice yields the state of applying it once.  (The unrestricted claim
fails only when a suggested value trims to the empty string, as the
counterexample shows.) -/
theorem C8_idempotent_amended (entries : List (String × Option String)) (s : FormState)
    (hv : ∀ e ∈ entries, ∀ w, e.2 = some w → jsTrim w ≠ "") :
    populateSuggestedFields entries (populateSuggestedFields entries s) =
      populateSuggestedFields entries s := by
  have hk : skel (populateSuggestedFields entries s) = skel s := skel_populate entries s
  have ht : (populateSuggestedFields entries (populateSuggestedFields entries s)).texts =
      (populateSuggestedFields entries s).texts := by
    rw [populate_texts, hk, populate_texts]
    apply List.ext_getElem?
    intro i
    simp only [applyWrites_getElem?]
    cases hf : s.texts[i]? with
    | none => rfl
    | some f =>
      show some (runOps (opsAt i (allWrites (skel s) entries))
          (runOps (opsAt i (allWrites (skel s) entries)) f)) =
        some (runOps (opsAt i (allWrites (skel s) entries)) f)
      refine congrArg some (runOps_idem _ f ?_)
      intro op hop
      rcases List.mem_map.mp hop with ⟨w, hwf, hw2⟩
      have hwW : w ∈ allWrites (skel s) entries := List.mem_of_mem_filter hwf
      rcases mem_allWrites hwW with ⟨e, he, v, he2, hwtw⟩
      have hval : jsTrim v ≠ "" := hv e he v he2
      rcases mem_textWrites hwtw with h | h
      · rw [← hw2, h]
        exact hval
      · rw [← hw2, h.2]
        exact hval
  have hg : (populateSuggestedFields entries (populateSuggestedFields entries s)).groups =
      (populateSuggestedFields entries s).groups := by
    rw [populate_groups, hk, populate_groups]
    exact foldl_gstep_idem _ _ _
  have he : populateSuggestedFields entries (populateSuggestedFields entries s) =
      ⟨(populateSuggestedFields entries (populateSuggestedFields entries s)).texts,
        (populateSuggestedFields entries (populateSuggestedFields entries s)).groups⟩ := rfl
  rw [he, ht, hg]

/-- Witness for the amended C8 on the rendered two-field policy and the
scenario suggestion map, whose values all trim non-empty. -/
theorem C8_witness :
    (∀ e ∈ piiSuggestions, ∀ w, e.2 = some w → jsTrim w ≠ "") ∧
      populateSuggestedFields piiSuggestions
          (populateSuggestedFields piiSuggestions (generateDynamicFields bizPiiPolicy)) =
        populateSuggestedFields piiSuggestions (generateDynamicFields bizPiiPolicy) := by
  have hv : ∀ e ∈ piiSuggestions, ∀ w, e.2 = some w → jsTrim w ≠ "" := by
    intro e he w hw
    rcases List.mem_cons.mp he with h | h
    · subst h
      have hw2 : some "Fraud detection" = some w := hw
      injection hw2 with h2
      subst h2
      decide
    · rcases List.mem_cons.mp h with h | h
      · subst h
        have hw2 : some "Yes" = some w := hw
        injection hw2 with h2
        subst h2
        decide
      · simp at h
  exact ⟨hv, C8_idempotent_amended piiSuggestions (generateDynamicFields bizPiiPolicy) hv⟩

end Frontend
